import Mathlib

/-!
Verification of the TechPulse news updater (`update_news.py`).

The script is dynamically typed Python operating on JSON values obtained
from the NewsAPI response.  We shallowly embed the JSON/Python values the
script manipulates and translate each function of the source file into a
Lean definition.  Raised Python exceptions are modelled with
`Except String`; printed diagnostics are collected in `List String`.

Value universe: the model covers JSON `null`, strings, integers and
objects.  JSON arrays are modelled only at the one position where the code
iterates them (the top-level `articles` list of a response); array-valued
article *fields* are outside the model (no claim mentions them).
-/

namespace TechPulse

/-- A JSON/Python value as manipulated by `update_news.py`: `null`,
a string, an integer, or an object (dict) given as a field list. -/
inductive JVal where
  | null
  | str (s : String)
  | int (n : Int)
  | obj (fields : List (String × JVal))
deriving Repr

/-- Python truthiness (`if url`, `x or y`) for the modelled values:
`None`, `""`, `0` and `{}` are falsy, everything else is truthy. -/
def truthy : JVal → Bool
  | .null => false
  | .str s => !(s = "")
  | .int n => !(n = 0)
  | .obj fs => !fs.isEmpty

/-- Whether a Python value is hashable (usable in a `set`).  Dicts are
unhashable; `None`, strings and integers are hashable. -/
def hashable : JVal → Bool
  | .obj _ => false
  | _ => true

/-- Python `==` restricted to the hashable values that can enter the
`seen_urls` set (set membership raises `TypeError` on unhashable values
before any equality test, so dict equality is never consulted). -/
def jeq : JVal → JVal → Bool
  | .null, .null => true
  | .str a, .str b => a = b
  | .int a, .int b => a = b
  | _, _ => false

/-- `d.get(k, default)` on a Python value: field lookup on a dict,
`AttributeError` on any non-dict (e.g. when an element of the `articles`
array is not an object). -/
def pyGet (v : JVal) (k : String) (default : JVal) : Except String JVal :=
  match v with
  | .obj fs => .ok ((fs.lookup k).getD default)
  | _ => .error "AttributeError"

/-- The `url` an article contributes to deduplication
(`article.get("url", "")`), as a total function on objects; articles kept
by the aggregator are always objects, non-objects never reach this. -/
def urlOf : JVal → JVal
  | .obj fs => (fs.lookup "url").getD (.str "")
  | _ => .str ""

/-- The sort key `x.get("publishedAt", "")` used by the aggregator, as a
total function on objects (all accumulated articles are objects). -/
def keyOf : JVal → JVal
  | .obj fs => (fs.lookup "publishedAt").getD (.str "")
  | _ => .str ""

/-- Rank of a value's type class, used to totalise the `<=` relation on
sort keys (see `pyLe`). -/
def classRank : JVal → Nat
  | .null => 0
  | .int _ => 1
  | .str _ => 2
  | .obj _ => 3

/-- Python string `<=`: lexicographic on code points. -/
def charListLe : List Char → List Char → Bool
  | [], _ => true
  | _ :: _, [] => false
  | a :: as, b :: bs => if a = b then charListLe as bs else decide (a < b)

/-- Total extension of Python `<=` on sort keys.  It agrees with Python on
the comparable pairs (two strings: code-point lexicographic; two
integers), and is only ever used by the sort under the
`sortKeysComparable` guard, which restricts the keys to a single
comparable class — on any other pair Python's comparison would raise and
the model raises before sorting. -/
def pyLe (a b : JVal) : Bool :=
  match a, b with
  | .int x, .int y => decide (x ≤ y)
  | .str x, .str y => charListLe x.data y.data
  | _, _ => decide (classRank a ≤ classRank b)

/-- Guard for `list.sort`: CPython's sort raises `TypeError` as soon as it
compares values of incomparable types, and performs no comparison at all
on lists of length `≤ 1`.  Within this value universe two keys are
comparable exactly when they are both strings or both integers, so a list
of `≥ 2` keys sorts without error iff all keys are strings or all are
integers. -/
def sortKeysComparable (ks : List JVal) : Bool :=
  ks.length ≤ 1 ||
    (ks.all (fun k => match k with | .str _ => true | _ => false) ||
     ks.all (fun k => match k with | .int _ => true | _ => false))

/-- The ordering realising `sort(key=lambda x: x.get("publishedAt", ""),
reverse=True)`: `a` may precede `b` iff `b`'s key is `<=` `a`'s key.
CPython's sort is stable, and `reverse=True` sorts descending while
keeping elements with equal keys in their original order.  A stable sort
with respect to a total preorder is unique, so (under the
`sortKeysComparable` guard, where `descByKey` is a total preorder)
`List.insertionSort descByKey` computes exactly the result of
`list.sort`. -/
def descByKey (a b : JVal) : Prop := pyLe (keyOf b) (keyOf a) = true

instance : DecidableRel descByKey := fun a b => by
  unfold descByKey; infer_instance

/-- Outcome of the single HTTP GET + JSON parse performed by
`fetch_news`.  `success articles` is an HTTP 200 whose JSON body is an
object whose `"articles"` key holds the given list (`none` when the key
is absent).  `failure` is any exception raised inside the `try` block:
network error, timeout, non-2xx status (`urlopen` raises `HTTPError`),
malformed JSON, or a body on which `.get` raises — the handler behaves
identically wherever the exception was raised. -/
inductive FetchOutcome where
  | success (articles : Option (List JVal))
  | failure (msg : String)

/-- `fetch_news(query, api_key, page_size)`: the request itself (query
parameters `q`, `language=en`, `sortBy=publishedAt`, `pageSize`,
`apiKey`, 10 s timeout, `TechPulse/1.0` user agent) is abstracted into
the `outcome` argument.  Returns the printed diagnostics and the article
list: on success `data.get("articles", [])`, on any failure a diagnostic
naming the query and the empty list. -/
def fetch_news (query : String) (outcome : FetchOutcome) :
    List String × List JVal :=
  match outcome with
  | .success articles => ([], articles.getD [])
  | .failure e =>
      (["Error fetching news for \x27" ++ query ++ "\x27: " ++ e], [])

/-- The inner loop of `fetch_category_news`: walk the fetched articles,
skip any whose `url` is falsy or already in `seen_urls`, append the rest.
`article.get` raises on a non-object article; adding to / testing the set
raises `TypeError` on an unhashable (dict) url. -/
def dedupArticles :
    List JVal → List JVal → List JVal → Except String (List JVal × List JVal)
  | [], seen, acc => .ok (seen, acc)
  | a :: rest, seen, acc =>
      match pyGet a "url" (.str "") with
      | .error e => .error e
      | .ok url =>
          if truthy url then
            if hashable url then
              if seen.any (jeq url) then
                dedupArticles rest seen acc
              else
                dedupArticles rest (url :: seen) (acc ++ [a])
            else
              .error "TypeError: unhashable type"
          else
            dedupArticles rest seen acc

/-- The query loop of `fetch_category_news`: fetch each query (page size
4) and fold the dedup loop over the results, collecting diagnostics. -/
def aggregateQueries (net : String → FetchOutcome) :
    List String → List String → List JVal → List JVal →
      Except String (List String × List JVal × List JVal)
  | [], logs, seen, acc => .ok (logs, seen, acc)
  | q :: qs, logs, seen, acc =>
      match dedupArticles (fetch_news q (net q)).2 seen acc with
      | .error e => .error e
      | .ok (seen', acc') =>
          aggregateQueries net qs (logs ++ (fetch_news q (net q)).1) seen' acc'

/-- A Python `for` loop building a list, where the body may raise:
used for the sort's key decoration pass and for the card generator. -/
def mapExcept (f : α → Except String β) : List α → Except String (List β)
  | [] => .ok []
  | a :: l =>
      match f a with
      | .error e => .error e
      | .ok b =>
          match mapExcept f l with
          | .error e => .error e
          | .ok bs => .ok (b :: bs)

/-- `fetch_category_news(category_queries, api_key)`: aggregate all
queries, then `all_articles.sort(key=lambda x: x.get("publishedAt", ""),
reverse=True)` and return the first 6.  The sort first computes every key
(CPython decorates before comparing) and raises `TypeError` unless the
keys are comparable; on comparable keys it is the stable descending sort
`insertionSort descByKey` (see `descByKey`). -/
def fetch_category_news (queries : List String) (net : String → FetchOutcome) :
    Except String (List String × List JVal) :=
  match aggregateQueries net queries [] [] [] with
  | .error e => .error e
  | .ok (logs, _, acc) =>
      match mapExcept (fun a => pyGet a "publishedAt" (.str "")) acc with
      | .error e => .error e
      | .ok keys =>
          if sortKeysComparable keys then
            .ok (logs, (acc.insertionSort descByKey).take 6)
          else
            .error "TypeError: unorderable types in sort"

/-! ## HTML escaping (`html.escape` with `quote=True`) -/

/-- Replacement for one character under `html.escape(s)`: `&`, `<`, `>`,
`"` and `'` become entities, every other character is unchanged.
(`html.escape` replaces `&` first, so the character-wise description is
equivalent.) -/
def escapeChar (c : Char) : List Char :=
  if c = '&' then "&amp;".data
  else if c = '<' then "&lt;".data
  else if c = '>' then "&gt;".data
  else if c = '"' then "&quot;".data
  else if c = '\x27' then "&#x27;".data
  else [c]

/-- `html.escape` on a character list. -/
def escapeChars (l : List Char) : List Char := l.flatMap escapeChar

/-- `html.escape(s, quote=True)`. -/
def pyEscape (s : String) : String := String.mk (escapeChars s.data)

/-- `html.escape` applied to a Python value: raises `AttributeError`
(`.replace` missing) on anything but a string. -/
def pyEscapeJ : JVal → Except String String
  | .str s => .ok (pyEscape s)
  | _ => .error "AttributeError"

/-! ## Title cleanup (`title.rsplit(" - ", 1)[0]`) -/

/-- The separator `" - "` used in the title cleanup. -/
def sepChars : List Char := [' ', '-', ' ']

/-- Python `pat in s` (substring test) on character lists. -/
def containsPat (pat : List Char) : List Char → Bool
  | [] => pat.isEmpty
  | c :: rest => pat.isPrefixOf (c :: rest) || containsPat pat rest

/-- `s.rsplit(pat, 1)[0]`: the prefix of `s` before the rightmost
occurrence of `pat` (the whole list when `pat` does not occur; the code
only calls this under a `pat in s` guard). -/
def beforeLastPat (pat : List Char) : List Char → List Char
  | [] => []
  | c :: rest =>
      if containsPat pat rest then c :: beforeLastPat pat rest
      else if pat.isPrefixOf (c :: rest) then []
      else c :: beforeLastPat pat rest

/-- The title pipeline of `generate_story_html`:
`title = escape(article.get("title", "Untitled") or "Untitled")`, then
strip at the rightmost `" - "` if the (escaped) title contains one.
The argument is the value already fetched with default `"Untitled"`. -/
def renderTitle (v : JVal) : Except String String :=
  match pyEscapeJ (if truthy v then v else JVal.str "Untitled") with
  | .error e => .error e
  | .ok t =>
      if containsPat sepChars t.data then
        .ok (String.mk (beforeLastPat sepChars t.data))
      else
        .ok t

/-- `url = escape(article.get("url", "#"))`; argument is the fetched
value. -/
def renderUrl (v : JVal) : Except String String := pyEscapeJ v

/-- `source = escape(article.get("source", {}).get("name", "Unknown"))`;
argument is the fetched `source` value (default `{}`). -/
def renderSource (v : JVal) : Except String String :=
  match pyGet v "name" (.str "Unknown") with
  | .error e => .error e
  | .ok name => pyEscapeJ name

/-- The description pipeline of `generate_story_html`:
`description = escape(article.get("description", "") or "")`, then
`description[:147] + "..."` when `len(description) > 150` — note the
length test and the slice apply to the *escaped* text.  The slice
`[:147]` keeps the first 147 code points.  Argument is the fetched value
(default `""`). -/
def renderDescription (v : JVal) : Except String String :=
  match pyEscapeJ (if truthy v then v else JVal.str "") with
  | .error e => .error e
  | .ok d =>
      .ok (if d.length > 150 then String.mk (d.data.take 147) ++ "..." else d)

/-! ## Dates (`datetime.fromisoformat`, `format_date`) -/

/-- A parsed `datetime`: civil fields plus an optional UTC offset in
microseconds (`none` = naive datetime). -/
structure PyDateTime where
  year : Nat
  month : Nat
  day : Nat
  hour : Nat
  minute : Nat
  second : Nat
  usec : Nat
  offUs : Option Int
deriving Repr, DecidableEq

def usPerSec : Int := 1000000
def usPerMin : Int := 60 * usPerSec
def usPerHour : Int := 60 * usPerMin
def usPerDay : Int := 24 * usPerHour

/-- Days from 1970-01-01 of the civil date `y-m-d` (proleptic Gregorian;
Hinnant's algorithm with floor division). -/
def daysFromCivil (y m d : Int) : Int :=
  let y' := if m ≤ 2 then y - 1 else y
  let era := Int.fdiv y' 400
  let yoe := y' - era * 400
  let mp := Int.fmod (m + 9) 12
  let doy := Int.fdiv (153 * mp + 2) 5 + d - 1
  let doe := yoe * 365 + Int.fdiv yoe 4 - Int.fdiv yoe 100 + doy
  era * 146097 + doe - 719468

/-- A datetime's civil fields as microseconds since the epoch of its own
(naive) clock, ignoring the offset. -/
def naiveUs (dt : PyDateTime) : Int :=
  daysFromCivil dt.year dt.month dt.day * usPerDay +
    dt.hour * usPerHour + dt.minute * usPerMin +
    dt.second * usPerSec + dt.usec

/-- The absolute instant of an aware datetime (naive clock minus offset),
in the same microsecond encoding. -/
def absUs (dt : PyDateTime) (off : Int) : Int := naiveUs dt - off

def isLeap (y : Nat) : Bool := y % 4 = 0 && (y % 100 ≠ 0 || y % 400 = 0)

def daysInMonth (y m : Nat) : Nat :=
  if m = 2 then (if isLeap y then 29 else 28)
  else if m = 4 || m = 6 || m = 9 || m = 11 then 30
  else 31

def digitVal (c : Char) : Nat := c.toNat - 48

/-- `HH[:MM[:SS[.fff[fff]]]]` — the time-component grammar of
`datetime.fromisoformat` (also used for the offset body): exactly the
shapes of length 2, 5, 8, 12 or 15 with `:`/`.` separators.  Returns
(hour, minute, second, microsecond). -/
def parseHMSF (l : List Char) : Option (Nat × Nat × Nat × Nat) :=
  match l with
  | [h1, h2] =>
      if h1.isDigit && h2.isDigit then
        some (digitVal h1 * 10 + digitVal h2, 0, 0, 0)
      else none
  | [h1, h2, ':', m1, m2] =>
      if h1.isDigit && h2.isDigit && m1.isDigit && m2.isDigit then
        some (digitVal h1 * 10 + digitVal h2, digitVal m1 * 10 + digitVal m2, 0, 0)
      else none
  | [h1, h2, ':', m1, m2, ':', s1, s2] =>
      if h1.isDigit && h2.isDigit && m1.isDigit && m2.isDigit &&
         s1.isDigit && s2.isDigit then
        some (digitVal h1 * 10 + digitVal h2, digitVal m1 * 10 + digitVal m2,
          digitVal s1 * 10 + digitVal s2, 0)
      else none
  | [h1, h2, ':', m1, m2, ':', s1, s2, '.', f1, f2, f3] =>
      if h1.isDigit && h2.isDigit && m1.isDigit && m2.isDigit &&
         s1.isDigit && s2.isDigit && f1.isDigit && f2.isDigit && f3.isDigit then
        some (digitVal h1 * 10 + digitVal h2, digitVal m1 * 10 + digitVal m2,
          digitVal s1 * 10 + digitVal s2,
          (digitVal f1 * 100 + digitVal f2 * 10 + digitVal f3) * 1000)
      else none
  | [h1, h2, ':', m1, m2, ':', s1, s2, '.', f1, f2, f3, f4, f5, f6] =>
      if h1.isDigit && h2.isDigit && m1.isDigit && m2.isDigit &&
         s1.isDigit && s2.isDigit && f1.isDigit && f2.isDigit && f3.isDigit &&
         f4.isDigit && f5.isDigit && f6.isDigit then
        some (digitVal h1 * 10 + digitVal h2, digitVal m1 * 10 + digitVal m2,
          digitVal s1 * 10 + digitVal s2,
          digitVal f1 * 100000 + digitVal f2 * 10000 + digitVal f3 * 1000 +
            digitVal f4 * 100 + digitVal f5 * 10 + digitVal f6)
      else none
  | _ => none

/-- Split a list at the first occurrence of `c`; `none` if absent. -/
def splitAtChar (c : Char) : List Char → Option (List Char × List Char)
  | [] => none
  | x :: rest =>
      if x = c then some ([], rest)
      else match splitAtChar c rest with
        | some (a, b) => some (x :: a, b)
        | none => none

/-- The offset search of `_parse_isoformat_time`: the time string is cut
at the first `-` if one occurs, else at the first `+`; the Bool is
whether the offset is negative. -/
def splitTz (l : List Char) : List Char × Option (Bool × List Char) :=
  match splitAtChar '-' l with
  | some (a, b) => (a, some (true, b))
  | none =>
      match splitAtChar '+' l with
      | some (a, b) => (a, some (false, b))
      | none => (l, none)

/-- `datetime.fromisoformat`: `YYYY-MM-DD` optionally followed by one
separator character (any character) and `HH[:MM[:SS[.fff[fff]]]]`,
optionally followed by a `±HH:MM[:SS[.ffffff]]` offset; all field values
validated as by the `datetime`/`timezone` constructors.  `none` models a
raised `ValueError`. -/
def parseIso (s : String) : Option PyDateTime :=
  match s.data with
  | y1 :: y2 :: y3 :: y4 :: '-' :: m1 :: m2 :: '-' :: d1 :: d2 :: rest =>
      if y1.isDigit && y2.isDigit && y3.isDigit && y4.isDigit &&
         m1.isDigit && m2.isDigit && d1.isDigit && d2.isDigit then
        let y := digitVal y1 * 1000 + digitVal y2 * 100 + digitVal y3 * 10 + digitVal y4
        let mo := digitVal m1 * 10 + digitVal m2
        let d := digitVal d1 * 10 + digitVal d2
        if 1 ≤ y ∧ 1 ≤ mo ∧ mo ≤ 12 ∧ 1 ≤ d ∧ d ≤ daysInMonth y mo then
          match rest with
          | [] => some ⟨y, mo, d, 0, 0, 0, 0, none⟩
          | _sep :: timeRest =>
              match splitTz timeRest with
              | (tstr, tz) =>
                  match parseHMSF tstr with
                  | none => none
                  | some (h, mi, sec, us) =>
                      if h ≤ 23 ∧ mi ≤ 59 ∧ sec ≤ 59 then
                        match tz with
                        | none => some ⟨y, mo, d, h, mi, sec, us, none⟩
                        | some (neg, tzChars) =>
                            if tzChars.length = 2 then none
                            else
                              match parseHMSF tzChars with
                              | none => none
                              | some (oh, om, os, ous) =>
                                  let offMag : Int := oh * usPerHour +
                                    om * usPerMin + os * usPerSec + ous
                                  if offMag < 24 * usPerHour then
                                    some ⟨y, mo, d, h, mi, sec, us,
                                      some (if neg then -offMag else offMag)⟩
                                  else none
                      else none
        else none
      else none
  | _ => none

/-- `iso_date.replace("Z", "+00:00")`: for the one-character pattern
`"Z"`, Python's `str.replace` substitutes every occurrence of the
character. -/
def replaceZ (s : String) : String :=
  String.mk (s.data.flatMap (fun c => if c = 'Z' then "+00:00".data else [c]))

/-- The render instant: `datetime.now(dt.tzinfo)` as used by
`format_date`.  For an aware parse this is the absolute current instant
(`absUs`); for a naive parse it is the system-local wall clock
(`localUs`), both in the microsecond encoding of `naiveUs`. -/
structure RenderNow where
  absUs : Int
  localUs : Int

def monthAbbrev (m : Nat) : String :=
  ["Jan", "Feb", "Mar", "Apr", "May", "Jun",
   "Jul", "Aug", "Sep", "Oct", "Nov", "Dec"].getD (m - 1) ""

/-- `%d`: zero-padded day of month. -/
def pad2 (d : Nat) : String :=
  if d < 10 then "0" ++ toString d else toString d

/-- `dt.strftime("%b %d")`. -/
def strftimeBD (dt : PyDateTime) : String :=
  monthAbbrev dt.month ++ " " ++ pad2 dt.day

/-- The label selection of `format_date` on `total = now - dt`
(microseconds): `timedelta` normalisation makes `diff.days` the floor of
`total` in 24-hour units (`Int.fdiv total usPerDay`) and `diff.seconds`
the nonnegative remainder in whole seconds
(`(total.fmod usPerDay).fdiv usPerSec`), then the branches of the source
follow (`hours = diff.seconds // 3600`). -/
def formatLabel (total : Int) (dt : PyDateTime) : String :=
  if Int.fdiv total usPerDay = 0 then
    if Int.fdiv (Int.fdiv (Int.fmod total usPerDay) usPerSec) 3600 = 0 then
      "Just now"
    else
      toString (Int.fdiv (Int.fdiv (Int.fmod total usPerDay) usPerSec) 3600) ++
        "h ago"
  else if Int.fdiv total usPerDay = 1 then "Yesterday"
  else if Int.fdiv total usPerDay < 7 then
    toString (Int.fdiv total usPerDay) ++ " days ago"
  else strftimeBD dt

/-- The body of `format_date` after a successful parse: `diff = now - dt`
(`now = datetime.now(dt.tzinfo)`: the absolute instant for an aware
parse, the local wall clock for a naive one), then the label. -/
def formatCore (rn : RenderNow) (dt : PyDateTime) : String :=
  formatLabel
    (match dt.offUs with
      | some off => rn.absUs - absUs dt off
      | none => rn.localUs - naiveUs dt) dt

/-- `format_date(iso_date)`: replace `Z`, parse, and format; the bare
`except` turns any raised error (unparseable string, or `.replace` on a
non-string) into the empty label. -/
def format_date (rn : RenderNow) (v : JVal) : String :=
  match v with
  | .str s =>
      match parseIso (replaceZ s) with
      | none => ""
      | some dt => formatCore rn dt
  | _ => ""

/-! ## Story card and page rendering -/

/-- `generate_story_html(article, featured)`: compute the five fields in
source order and splice them into the card template. -/
def generate_story_html (rn : RenderNow) (article : JVal) (featured : Bool) :
    Except String String := do
  let title ← renderTitle (← pyGet article "title" (.str "Untitled"))
  let url ← renderUrl (← pyGet article "url" (.str "#"))
  let source ← renderSource (← pyGet article "source" (.obj []))
  let date := format_date rn (← pyGet article "publishedAt" (.str ""))
  let desc ← renderDescription (← pyGet article "description" (.str ""))
  let cssClass := if featured then "story featured" else "story"
  Except.ok ("                <a href=\"" ++ url ++ "\" class=\"" ++ cssClass ++
    "\" target=\"_blank\">\n" ++
    "                    <h3 class=\"story-title\">" ++ title ++ "</h3>\n" ++
    "                    <div class=\"story-meta\">\n" ++
    "                        <span class=\"story-source\">" ++ source ++ "</span>\n" ++
    "                        <span>" ++ date ++ "</span>\n" ++
    "                    </div>\n" ++
    "                    <p class=\"story-excerpt\">" ++ desc ++ "</p>\n" ++
    "                </a>")

/-- One `<section>` block of `generate_html` (the `sections_html +=`
template). -/
def sectionHtml (category stories : String) : String :=
  "\n        <section class=\"section\">\n" ++
  "            <h2 class=\"section-title\">" ++ category ++ "</h2>\n" ++
  "            <div class=\"stories\">\n" ++ stories ++ "\n" ++
  "            </div>\n        </section>\n"

/-- The section loop of `generate_html`: skip categories with no
articles, join the cards of the others with newlines (card 0 is
featured), and concatenate the section blocks in order. -/
def categorySections (rn : RenderNow) :
    List (String × List JVal) → Except String String
  | [] => .ok ""
  | (cat, articles) :: rest =>
      if articles.isEmpty then categorySections rn rest
      else
        match mapExcept (fun p => generate_story_html rn p.2 (p.1 = 0))
            articles.enum with
        | .error e => .error e
        | .ok cards =>
            match categorySections rn rest with
            | .error e => .error e
            | .ok restHtml =>
                .ok (sectionHtml cat (String.intercalate "\n" cards) ++ restHtml)

/-- The fixed page shell of `generate_html` (the f-string template with
`{{`/`}}` rendered as literal braces), as a list of output lines with the
`{today}` and `{sections_html}` splice points. -/
def pageHtml (today sections : String) : String :=
  String.intercalate "\n" [
    "<!DOCTYPE html>",
    "<html lang=\"en\">",
    "<head>",
    "    <meta charset=\"UTF-8\">",
    "    <meta name=\"viewport\" content=\"width=device-width, initial-scale=1.0\">",
    "    <title>Tech Pulse | AI • Dev Tools • Industry</title>",
    "    <style>",
    "        :root \x7b",
    "            --bg: #fafafa;",
    "            --card: #ffffff;",
    "            --text: #1a1a1a;",
    "            --muted: #666;",
    "            --accent: #2563eb;",
    "            --border: #e5e5e5;",
    "        \x7d",
    "        ",
    "        * \x7b",
    "            margin: 0;",
    "            padding: 0;",
    "            box-sizing: border-box;",
    "        \x7d",
    "        ",
    "        body \x7b",
    "            font-family: -apple-system, BlinkMacSystemFont, \x27Segoe UI\x27, Roboto, sans-serif;",
    "            background: var(--bg);",
    "            color: var(--text);",
    "            line-height: 1.6;",
    "        \x7d",
    "        ",
    "        header \x7b",
    "            background: var(--card);",
    "            border-bottom: 1px solid var(--border);",
    "            padding: 1.5rem 2rem;",
    "            position: sticky;",
    "            top: 0;",
    "            z-index: 100;",
    "        \x7d",
    "        ",
    "        .header-content \x7b",
    "            max-width: 1200px;",
    "            margin: 0 auto;",
    "            display: flex;",
    "            justify-content: space-between;",
    "            align-items: center;",
    "        \x7d",
    "        ",
    "        .logo \x7b",
    "            font-size: 1.5rem;",
    "            font-weight: 700;",
    "            color: var(--text);",
    "            text-decoration: none;",
    "        \x7d",
    "        ",
    "        .logo span \x7b",
    "            color: var(--accent);",
    "        \x7d",
    "        ",
    "        .date \x7b",
    "            color: var(--muted);",
    "            font-size: 0.875rem;",
    "        \x7d",
    "        ",
    "        main \x7b",
    "            max-width: 1200px;",
    "            margin: 0 auto;",
    "            padding: 2rem;",
    "        \x7d",
    "        ",
    "        .section \x7b",
    "            margin-bottom: 3rem;",
    "        \x7d",
    "        ",
    "        .section-title \x7b",
    "            font-size: 0.75rem;",
    "            text-transform: uppercase;",
    "            letter-spacing: 0.1em;",
    "            color: var(--accent);",
    "            margin-bottom: 1rem;",
    "            font-weight: 600;",
    "        \x7d",
    "        ",
    "        .stories \x7b",
    "            display: grid;",
    "            gap: 1rem;",
    "        \x7d",
    "        ",
    "        .story \x7b",
    "            background: var(--card);",
    "            border: 1px solid var(--border);",
    "            border-radius: 8px;",
    "            padding: 1.25rem;",
    "            text-decoration: none;",
    "            color: inherit;",
    "            transition: box-shadow 0.2s, transform 0.2s;",
    "        \x7d",
    "        ",
    "        .story:hover \x7b",
    "            box-shadow: 0 4px 12px rgba(0,0,0,0.08);",
    "            transform: translateY(-2px);",
    "        \x7d",
    "        ",
    "        .story-title \x7b",
    "            font-size: 1.1rem;",
    "            font-weight: 600;",
    "            margin-bottom: 0.5rem;",
    "            color: var(--text);",
    "        \x7d",
    "        ",
    "        .story-meta \x7b",
    "            display: flex;",
    "            gap: 1rem;",
    "            font-size: 0.8rem;",
    "            color: var(--muted);",
    "        \x7d",
    "        ",
    "        .story-source \x7b",
    "            font-weight: 500;",
    "        \x7d",
    "        ",
    "        .story-excerpt \x7b",
    "            margin-top: 0.75rem;",
    "            font-size: 0.9rem;",
    "            color: var(--muted);",
    "        \x7d",
    "        ",
    "        .featured \x7b",
    "            grid-column: 1 / -1;",
    "            background: linear-gradient(135deg, #1e3a8a 0%, #3b82f6 100%);",
    "            color: white;",
    "        \x7d",
    "        ",
    "        .featured .story-title \x7b",
    "            color: white;",
    "            font-size: 1.4rem;",
    "        \x7d",
    "        ",
    "        .featured .story-meta,",
    "        .featured .story-excerpt \x7b",
    "            color: rgba(255,255,255,0.85);",
    "        \x7d",
    "        ",
    "        @media (min-width: 768px) \x7b",
    "            .stories \x7b",
    "                grid-template-columns: repeat(2, 1fr);",
    "            \x7d",
    "        \x7d",
    "        ",
    "        @media (min-width: 1024px) \x7b",
    "            .stories \x7b",
    "                grid-template-columns: repeat(3, 1fr);",
    "            \x7d",
    "        \x7d",
    "        ",
    "        footer \x7b",
    "            text-align: center;",
    "            padding: 2rem;",
    "            color: var(--muted);",
    "            font-size: 0.875rem;",
    "            border-top: 1px solid var(--border);",
    "        \x7d",
    "    </style>",
    "</head>",
    "<body>",
    "    <header>",
    "        <div class=\"header-content\">",
    "            <a href=\"#\" class=\"logo\">Tech<span>Pulse</span></a>",
    "            <span class=\"date\">" ++ today ++ "</span>",
    "        </div>",
    "    </header>",
    "    ",
    "    <main>" ++ sections,
    "    </main>",
    "    ",
    "    <footer>",
    "        <p>Curated tech news • Updated " ++ today ++ "</p>",
    "    </footer>",
    "</body>",
    "</html>",
    ""]

/-- `generate_html(news_by_category)`; `today` is
`datetime.now().strftime("%B %d, %Y")`, a parameter of the model. -/
def generate_html (rn : RenderNow) (today : String)
    (newsByCategory : List (String × List JVal)) : Except String String :=
  match categorySections rn newsByCategory with
  | .error e => .error e
  | .ok sections => .ok (pageHtml today sections)

/-! ## Orchestrator (`get_api_key`, `main`) -/

/-- The hardcoded `CATEGORIES` configuration (a Python 3.7+ dict keeps
insertion order). -/
def CATEGORIES : List (String × List String) := [
  ("Artificial Intelligence", [
    "artificial intelligence",
    "OpenAI OR Anthropic OR DeepMind",
    "large language model OR LLM"]),
  ("Developer Tools", [
    "developer tools OR IDE",
    "GitHub OR VS Code OR programming",
    "software development"]),
  ("Tech Industry", [
    "tech industry",
    "Apple OR Google OR Microsoft OR Meta",
    "startup funding OR tech stocks"])]

/-- `get_api_key()`: the key file's contents (stripped) when the file
exists — even when the stripped contents are empty — else the
`NEWSAPI_KEY` environment variable, else `""`. -/
def get_api_key (keyFile envKey : Option String) : String :=
  match keyFile with
  | some contents => contents.trim
  | none => envKey.getD ""

/-- The category loop of `main`: log, aggregate each category in order,
and collect the per-category results. -/
def categoriesFetch (net : String → FetchOutcome) :
    List (String × List String) →
      Except String (List String × List (String × List JVal))
  | [] => .ok ([], [])
  | (cat, qs) :: rest =>
      match fetch_category_news qs net with
      | .error e => .error e
      | .ok (logs, arts) =>
          match categoriesFetch net rest with
          | .error e => .error e
          | .ok (logs', rest') =>
              .ok (("  Fetching " ++ cat ++ "...") :: (logs ++ logs'),
                (cat, arts) :: rest')

/-- `main()` (and the final `exit(main())`): returns the exit status, the
written output file contents (`none` when nothing is written) and the
console lines.  `keyFile`/`envKey` model the credential sources,
`net` the network, `today`/`nowStamp` the two formatted clock reads, and
`apiKeyFile`/`outputFile` the script-relative paths.  A `.error` result
is an uncaught Python exception: the process dies with a traceback and
no file is written. -/
def main_run (apiKeyFile outputFile : String) (keyFile envKey : Option String)
    (net : String → FetchOutcome) (today nowStamp : String) (rn : RenderNow) :
    Except String (Nat × Option String × List String) :=
  if get_api_key keyFile envKey = "" then
    .ok (1, none, [
      "Error: No API key found.",
      "Create a file at: " ++ apiKeyFile,
      "Or set NEWSAPI_KEY environment variable.",
      "Get a free key at: https://newsapi.org/register"])
  else
    match categoriesFetch net CATEGORIES with
    | .error e => .error e
    | .ok (logs, newsByCat) =>
        match generate_html rn today newsByCat with
        | .error e => .error e
        | .ok html =>
            .ok (0, some html,
              ("Fetching news at " ++ nowStamp ++ "...") :: logs ++
                ["  Found " ++
                  toString ((newsByCat.map (fun p => p.2.length)).sum) ++
                  " articles",
                 "Updated: " ++ outputFile])

/-! ## Predicates used by the specification statements -/

/-- An article value that went through the dedup filter: an object whose
url is truthy and hashable. -/
def isObj : JVal → Bool
  | .obj _ => true
  | _ => false

def goodArt (a : JVal) : Prop :=
  isObj a = true ∧ truthy (urlOf a) = true ∧ hashable (urlOf a) = true

/-- The pairwise relation "distinct urls". -/
def urlDistinct (a b : JVal) : Prop := jeq (urlOf a) (urlOf b) = false

/-- A character that `html.escape` leaves unchanged. -/
def plainChar (c : Char) : Bool :=
  !(c = '&' || c = '<' || c = '>' || c = '"' || c = '\x27')

/-- Text without HTML-special characters (escaping is the identity). -/
def plainText (s : String) : Bool := s.data.all plainChar

/-- A character that never occurs raw in escaped output: escaped text
contains no `<`, `>`, `"` or `'` at all (they all become entities). -/
def safeChar (c : Char) : Bool :=
  !(c = '<' || c = '>' || c = '"' || c = '\x27')

def noRawSpecials (s : String) : Bool := s.data.all safeChar

/-- Every ampersand starts an entity: it is followed by `a`, `l`, `g`,
`q` or `#` (the first characters of `amp;`, `lt;`, `gt;`, `quot;`,
`#x27;`).  `html.escape` output always satisfies this; a violation means
a bare ampersand survived in the output. -/
def ampEscaped : List Char → Bool
  | [] => true
  | c :: rest =>
      ((!(c = '&')) ||
        (match rest with
          | [] => false
          | d :: _ => d = 'a' || d = 'l' || d = 'g' || d = 'q' || d = '#')) &&
      ampEscaped rest

/-- A string or null value (what the `or`-guarded renderer fields
tolerate). -/
def strOrNull : JVal → Bool
  | .null => true
  | .str _ => true
  | _ => false

/-- Well-formed article fields (string or tolerated null/absent), the
shapes the renderer survives; see `wfArticle`. -/
def wfFieldOpt : Option JVal → Bool
  | none => true
  | some .null => true
  | some (.str _) => true
  | some _ => false

/-- Absent or a string (null not tolerated at this position). -/
def wfFieldStr : Option JVal → Bool
  | none => true
  | some (.str _) => true
  | some _ => false

/-- The `source` value: absent, or an object whose `name` is absent or a
string. -/
def wfSource : Option JVal → Bool
  | none => true
  | some (.obj fs) => wfFieldStr (fs.lookup "name")
  | some _ => false

/-- A well-formed fetched article: a JSON object whose `title`, `url` and
`description` are strings or null when present, whose `publishedAt` is a
string when present, and whose `source` is an object with a string (or
absent) `name` when present. -/
def wfArticle : JVal → Bool
  | .obj fs =>
      wfFieldOpt (fs.lookup "title") && wfFieldOpt (fs.lookup "url") &&
      wfFieldStr (fs.lookup "publishedAt") &&
      wfFieldOpt (fs.lookup "description") && wfSource (fs.lookup "source")
  | _ => false

/-- A network environment whose successful responses contain only
well-formed articles (failures and absent `articles` keys are
unrestricted). -/
def wfNet (net : String → FetchOutcome) : Prop :=
  ∀ q, match net q with
    | .success (some arts) => ∀ a ∈ arts, wfArticle a = true
    | _ => True

/-! ## Lemmas: the key order, equality, and deduplication invariants -/

theorem charListLe_refl : ∀ as : List Char, charListLe as as = true
  | [] => rfl
  | a :: as => by simp [charListLe, charListLe_refl as]

theorem charListLe_total :
    ∀ as bs : List Char, charListLe as bs = true ∨ charListLe bs as = true
  | [], _ => .inl rfl
  | _ :: _, [] => .inr rfl
  | a :: as, b :: bs => by
      by_cases h : a = b
      · subst h
        simpa [charListLe] using charListLe_total as bs
      · rcases lt_or_gt_of_ne h with hlt | hgt
        · exact .inl (by simp [charListLe, h, hlt])
        · exact .inr (by simp [charListLe, Ne.symm h, hgt])

theorem charListLe_trans :
    ∀ {as bs cs : List Char}, charListLe as bs = true →
      charListLe bs cs = true → charListLe as cs = true
  | [], _, _, _, _ => rfl
  | _ :: _, [], _, h1, _ => by simp [charListLe] at h1
  | _ :: _, _ :: _, [], _, h2 => by simp [charListLe] at h2
  | a :: as, b :: bs, c :: cs, h1, h2 => by
      by_cases hab : a = b <;> by_cases hbc : b = c
      · subst hab; subst hbc
        simp only [charListLe, if_pos rfl] at h1 h2 ⊢
        exact charListLe_trans h1 h2
      · subst hab
        simpa [charListLe, hbc] using h2
      · subst hbc
        simpa [charListLe, hab] using h1
      · simp only [charListLe, if_neg hab, if_neg hbc, decide_eq_true_eq] at h1 h2
        have hac : a < c := lt_trans h1 h2
        simp [charListLe, ne_of_lt hac, hac]

theorem pyLe_refl (a : JVal) : pyLe a a = true := by
  cases a <;> simp [pyLe, charListLe_refl]

theorem pyLe_total (a b : JVal) : pyLe a b = true ∨ pyLe b a = true := by
  cases a <;> cases b <;> simp [pyLe, classRank] <;>
    first
      | omega
      | apply charListLe_total

theorem pyLe_trans {a b c : JVal} (h1 : pyLe a b = true)
    (h2 : pyLe b c = true) : pyLe a c = true := by
  cases a <;> cases b <;> cases c <;>
    simp_all only [pyLe, classRank, decide_eq_true_eq] <;>
    first
      | rfl
      | omega
      | exact charListLe_trans h1 h2

instance : IsTotal JVal descByKey :=
  ⟨fun a b => pyLe_total (keyOf b) (keyOf a)⟩

instance : IsTrans JVal descByKey :=
  ⟨fun _ _ _ h1 h2 => pyLe_trans h2 h1⟩

theorem jeq_symm {a b : JVal} (h : jeq a b = true) : jeq b a = true := by
  cases a <;> cases b <;> simp_all [jeq]

theorem jeq_trans {a b c : JVal} (h1 : jeq a b = true)
    (h2 : jeq b c = true) : jeq a c = true := by
  cases a <;> cases b <;> cases c <;> simp_all [jeq]

theorem jeq_refl {a : JVal} (h : hashable a = true) : jeq a a = true := by
  cases a <;> simp_all [jeq, hashable]

theorem urlDistinct_symm {a b : JVal} (h : urlDistinct a b) :
    urlDistinct b a := by
  unfold urlDistinct at h ⊢
  cases hj : jeq (urlOf b) (urlOf a)
  · rfl
  · rw [jeq_symm hj] at h; cases h

/-- Invariants of the dedup loop: provided every accumulated article is
`goodArt` with its url registered in `seen`, and accumulated urls are
pairwise distinct, the loop preserves all of that, only appends articles
coming from its input, and only grows `seen`. -/
theorem dedupArticles_spec :
    ∀ (articles seen acc seen' acc' : List JVal),
      dedupArticles articles seen acc = .ok (seen', acc') →
      (∀ a ∈ acc, goodArt a ∧ ∃ u ∈ seen, jeq u (urlOf a) = true) →
      acc.Pairwise urlDistinct →
      (∀ a ∈ acc', goodArt a ∧ ∃ u ∈ seen', jeq u (urlOf a) = true) ∧
        acc'.Pairwise urlDistinct ∧
        (∀ a ∈ acc', a ∈ acc ∨ a ∈ articles) ∧
        (∀ u ∈ seen, u ∈ seen')
  | [], seen, acc, seen', acc', h, hacc, hpw => by
      simp only [dedupArticles, Except.ok.injEq, Prod.mk.injEq] at h
      obtain ⟨rfl, rfl⟩ := h
      exact ⟨hacc, hpw, fun a ha => .inl ha, fun u hu => hu⟩
  | a :: rest, seen, acc, seen', acc', h, hacc, hpw => by
      match ha : a with
      | .null | .str _ | .int _ => simp [dedupArticles, pyGet] at h
      | .obj fs =>
        rw [dedupArticles] at h
        simp only [pyGet] at h
        have hurl : (fs.lookup "url").getD (.str "") = urlOf (.obj fs) := rfl
        rw [hurl] at h
        by_cases ht : truthy (urlOf (.obj fs)) = true
        · rw [if_pos ht] at h
          by_cases hh : hashable (urlOf (.obj fs)) = true
          · rw [if_pos hh] at h
            by_cases hs : seen.any (jeq (urlOf (.obj fs))) = true
            · rw [if_pos hs] at h
              have := dedupArticles_spec rest seen acc seen' acc' h hacc hpw
              exact ⟨this.1, this.2.1,
                fun x hx => (this.2.2.1 x hx).imp id
                  (fun hm => List.mem_cons_of_mem _ hm),
                this.2.2.2⟩
            · rw [if_neg hs] at h
              have hacc2 : ∀ x ∈ acc ++ [JVal.obj fs], goodArt x ∧
                  ∃ u ∈ urlOf (.obj fs) :: seen, jeq u (urlOf x) = true := by
                intro x hx
                rcases List.mem_append.mp hx with hx | hx
                · obtain ⟨hg, u, hu, hju⟩ := hacc x hx
                  exact ⟨hg, u, List.mem_cons_of_mem _ hu, hju⟩
                · rcases List.mem_singleton.mp hx with rfl
                  exact ⟨⟨rfl, ht, hh⟩, urlOf (.obj fs), List.mem_cons_self _ _,
                    jeq_refl hh⟩
              have hpw2 : (acc ++ [JVal.obj fs]).Pairwise urlDistinct := by
                rw [List.pairwise_append]
                refine ⟨hpw, List.pairwise_singleton _ _, ?_⟩
                intro x hx y hy
                have hy' : y = JVal.obj fs := List.mem_singleton.mp hy
                subst hy'
                obtain ⟨_, u, hu, hju⟩ := hacc x hx
                unfold urlDistinct
                by_contra hj
                rw [Bool.not_eq_false] at hj
                have h1 : jeq (urlOf (JVal.obj fs)) u = true :=
                  jeq_symm (jeq_trans hju hj)
                exact hs (List.any_eq_true.mpr ⟨u, hu, h1⟩)
              have := dedupArticles_spec rest (urlOf (.obj fs) :: seen)
                (acc ++ [JVal.obj fs]) seen' acc' h hacc2 hpw2
              refine ⟨this.1, this.2.1, ?_, ?_⟩
              · intro x hx
                rcases this.2.2.1 x hx with hm | hm
                · rcases List.mem_append.mp hm with hm | hm
                  · exact .inl hm
                  · have hm' : x = JVal.obj fs := List.mem_singleton.mp hm
                    subst hm'
                    exact .inr (List.mem_cons_self _ _)
                · exact .inr (List.mem_cons_of_mem _ hm)
              · exact fun u hu => this.2.2.2 u (List.mem_cons_of_mem _ hu)
          · rw [if_neg hh] at h
            cases h
        · rw [if_neg ht] at h
          have := dedupArticles_spec rest seen acc seen' acc' h hacc hpw
          exact ⟨this.1, this.2.1,
            fun x hx => (this.2.2.1 x hx).imp id
              (fun hm => List.mem_cons_of_mem _ hm),
            this.2.2.2⟩

/-- The query-loop invariants, chained from `dedupArticles_spec`; the
provenance conclusion records that every accumulated article came from
one of the processed fetches. -/
theorem aggregateQueries_spec :
    ∀ (qs : List String) (net : String → FetchOutcome) (logs : List String)
      (seen acc : List JVal) (logs' : List String) (seen' acc' : List JVal),
      aggregateQueries net qs logs seen acc = .ok (logs', seen', acc') →
      (∀ a ∈ acc, goodArt a ∧ ∃ u ∈ seen, jeq u (urlOf a) = true) →
      acc.Pairwise urlDistinct →
      (∀ a ∈ acc', goodArt a) ∧
        acc'.Pairwise urlDistinct ∧
        (∀ a ∈ acc', a ∈ acc ∨ ∃ q ∈ qs, a ∈ (fetch_news q (net q)).2)
  | [], net, logs, seen, acc, logs', seen', acc', h, hacc, hpw => by
      simp only [aggregateQueries, Except.ok.injEq, Prod.mk.injEq] at h
      obtain ⟨rfl, rfl, rfl⟩ := h
      exact ⟨fun a ha => (hacc a ha).1, hpw, fun a ha => .inl ha⟩
  | q :: qs, net, logs, seen, acc, logs', seen', acc', h, hacc, hpw => by
      rw [aggregateQueries] at h
      cases hd : dedupArticles (fetch_news q (net q)).2 seen acc with
      | error e => rw [hd] at h; cases h
      | ok p =>
        obtain ⟨seen1, acc1⟩ := p
        rw [hd] at h
        have hds := dedupArticles_spec _ _ _ _ _ hd hacc hpw
        have := aggregateQueries_spec qs net _ seen1 acc1 logs' seen' acc'
          h hds.1 hds.2.1
        refine ⟨this.1, this.2.1, ?_⟩
        intro a ha
        rcases this.2.2 a ha with hm | ⟨q', hq', hmem⟩
        · rcases hds.2.2.1 a hm with hm' | hm'
          · exact .inl hm'
          · exact .inr ⟨q, List.mem_cons_self _ _, hm'⟩
        · exact .inr ⟨q', List.mem_cons_of_mem _ hq', hmem⟩

/-- In a duplicate-free list, a pair that occurs in order with the second
component inside the first `n` elements occurs in order inside the first
`n` elements. -/
theorem pair_sublist_take {α : Type _} {a b : α} :
    ∀ {l : List α} {n : Nat}, List.Sublist [a, b] l → l.Nodup → b ∈ l.take n →
      List.Sublist [a, b] (l.take n)
  | [], _, h, _, hb => by simp at hb
  | x :: l, 0, _, _, hb => by simp at hb
  | x :: l, n + 1, h, hnd, hb => by
      rw [List.take_succ_cons] at hb ⊢
      cases h with
      | cons _ h' =>
          rcases List.mem_cons.mp hb with rfl | hb'
          · exact absurd (h'.subset (by simp)) (List.nodup_cons.mp hnd).1
          · exact .cons _ (pair_sublist_take h' (List.nodup_cons.mp hnd).2 hb')
      | cons₂ _ h' =>
          rcases List.mem_cons.mp hb with hbx | hb'
          · exact absurd (hbx ▸ List.singleton_sublist.mp h')
              (List.nodup_cons.mp hnd).1
          · exact List.Sublist.cons₂ _ (List.singleton_sublist.mpr hb')

/-- `urlDistinct` pairwise together with hashable urls gives `Nodup`. -/
theorem nodup_of_urlDistinct {l : List JVal}
    (hg : ∀ a ∈ l, goodArt a) (hpw : l.Pairwise urlDistinct) : l.Nodup := by
  refine hpw.imp_of_mem ?_
  intro a b ha _ hab heq
  subst heq
  obtain ⟨-, -, hh⟩ := hg a ha
  unfold urlDistinct at hab
  rw [jeq_refl hh] at hab
  cases hab

/-- Unfolding of a successful `fetch_category_news` run: the log and the
pre-sort accumulated list, with the output equal to the sorted, truncated
accumulation, all accumulated articles `goodArt`, pairwise url-distinct,
and drawn from the fetch results. -/
theorem fetch_category_news_spec (queries : List String)
    (net : String → FetchOutcome) (logs : List String) (out : List JVal)
    (h : fetch_category_news queries net = .ok (logs, out)) :
    ∃ seen acc, aggregateQueries net queries [] [] [] = .ok (logs, seen, acc) ∧
      out = (acc.insertionSort descByKey).take 6 ∧
      (∀ a ∈ acc, goodArt a) ∧ acc.Pairwise urlDistinct ∧
      (∀ a ∈ acc, ∃ q ∈ queries, a ∈ (fetch_news q (net q)).2) := by
  rw [fetch_category_news] at h
  split at h
  · cases h
  · rename_i logs0 seen acc hagg
    split at h
    · cases h
    · rename_i keys hkeys
      split at h
      · simp only [Except.ok.injEq, Prod.mk.injEq] at h
        obtain ⟨rfl, rfl⟩ := h
        have hspec := aggregateQueries_spec queries net [] [] [] logs0 seen acc
          hagg (by intro a ha; cases ha) List.Pairwise.nil
        refine ⟨seen, acc, hagg, rfl, hspec.1, hspec.2.1, ?_⟩
        intro a ha
        rcases hspec.2.2 a ha with hm | hm
        · cases hm
        · exact hm
      · cases h

/-! ## Claim C1 -/

/-- C1, counterexample: the claim says an article whose URL is empty
"bypasses the seen-URL set and is always appended"; in the code
(`if url and url not in seen_urls:`) a falsy URL makes the whole guard
false, so the article is *dropped*.  Fetching one article with an empty
URL yields an empty aggregation, not a one-article list. -/
theorem C1_counterexample :
    fetch_category_news ["artificial intelligence"]
      (fun _ => FetchOutcome.success
        (some [JVal.obj [("url", JVal.str ""), ("title", JVal.str "A")]])) =
      Except.ok ([], []) := rfl

/-- C1 (amended): every fetched article whose URL is empty or absent
(falsy) is skipped entirely — never added to the seen set and never
appended — so every article in the aggregator's output has a truthy
(non-empty) URL. -/
theorem C1_empty_url_dropped (queries : List String)
    (net : String → FetchOutcome) (logs : List String) (out : List JVal)
    (h : fetch_category_news queries net = .ok (logs, out)) :
    ∀ a ∈ out, truthy (urlOf a) = true := by
  obtain ⟨seen, acc, -, rfl, hgood, -, -⟩ :=
    fetch_category_news_spec _ _ _ _ h
  intro a ha
  have hmem : a ∈ acc :=
    (List.perm_insertionSort descByKey acc).subset
      ((List.take_sublist _ _).subset ha)
  exact (hgood a hmem).2.1

theorem C1_empty_url_dropped_witness :
    truthy (urlOf (JVal.obj [("url", JVal.str "u1")])) = true :=
  C1_empty_url_dropped ["q"]
    (fun _ => FetchOutcome.success (some [JVal.obj [("url", JVal.str "u1")]]))
    [] [JVal.obj [("url", JVal.str "u1")]] rfl _ (by simp)

/-! ## Claim C3 -/

/-- C3: whenever the aggregator returns, its output has length at most 6,
is sorted by `publishedAt` descending (`keyOf` defaults a missing
`publishedAt` to the empty string, which sorts last), has pairwise
distinct truthy URLs, and is stable: articles of the accumulated
(fetch/append-ordered) list with equal keys keep their relative order in
the output. -/
theorem C3_aggregator_output (queries : List String)
    (net : String → FetchOutcome) (logs : List String) (out : List JVal)
    (h : fetch_category_news queries net = .ok (logs, out)) :
    out.length ≤ 6 ∧
    out.Pairwise (fun a b => pyLe (keyOf b) (keyOf a) = true) ∧
    out.Pairwise urlDistinct ∧
    (∀ a ∈ out, truthy (urlOf a) = true) ∧
    (∀ (logs₀ : List String) (seen acc : List JVal),
      aggregateQueries net queries [] [] [] = .ok (logs₀, seen, acc) →
      ∀ a b, List.Sublist [a, b] acc → keyOf a = keyOf b → b ∈ out →
        List.Sublist [a, b] out) := by
  obtain ⟨seen, acc, hagg, rfl, hgood, hpw, -⟩ :=
    fetch_category_news_spec _ _ _ _ h
  have hperm := List.perm_insertionSort descByKey acc
  refine ⟨?_, ?_, ?_, ?_, ?_⟩
  · exact List.length_take_le 6 _
  · exact (List.sorted_insertionSort descByKey acc).sublist
      (List.take_sublist _ _)
  · exact ((hperm.pairwise_iff (fun h' => urlDistinct_symm h')).mpr hpw).sublist
      (List.take_sublist _ _)
  · intro a ha
    exact (hgood a (hperm.subset ((List.take_sublist _ _).subset ha))).2.1
  · intro logs₀ seen₀ acc₀ hagg₀ a b hab hkey hbmem
    rw [hagg₀] at hagg
    have hacc : acc₀ = acc := by cases hagg; rfl
    rw [hacc] at hab
    have hdesc : descByKey a b := by
      unfold descByKey
      rw [hkey]
      exact pyLe_refl _
    have hsorted : List.Sublist [a, b] (List.insertionSort descByKey acc) :=
      List.pair_sublist_insertionSort hdesc hab
    have hnd : (List.insertionSort descByKey acc).Nodup :=
      hperm.nodup_iff.mpr (nodup_of_urlDistinct hgood hpw)
    exact pair_sublist_take hsorted hnd hbmem

theorem C3_aggregator_output_witness :
    List.Sublist
      [JVal.obj [("url", JVal.str "u1"), ("publishedAt", JVal.str "2024-01-01")],
       JVal.obj [("url", JVal.str "u2"), ("publishedAt", JVal.str "2024-01-01")]]
      [JVal.obj [("url", JVal.str "u1"), ("publishedAt", JVal.str "2024-01-01")],
       JVal.obj [("url", JVal.str "u2"), ("publishedAt", JVal.str "2024-01-01")]] ∧
    ([JVal.obj [("url", JVal.str "u1"), ("publishedAt", JVal.str "2024-01-01")],
      JVal.obj [("url", JVal.str "u2"), ("publishedAt", JVal.str "2024-01-01")]] :
        List JVal).length ≤ 6 := by
  have h := C3_aggregator_output ["q"]
    (fun _ => FetchOutcome.success
      (some [JVal.obj [("url", JVal.str "u1"), ("publishedAt", JVal.str "2024-01-01")],
             JVal.obj [("url", JVal.str "u2"), ("publishedAt", JVal.str "2024-01-01")]]))
    []
    [JVal.obj [("url", JVal.str "u1"), ("publishedAt", JVal.str "2024-01-01")],
     JVal.obj [("url", JVal.str "u2"), ("publishedAt", JVal.str "2024-01-01")]]
    rfl
  refine ⟨?_, h.1⟩
  exact h.2.2.2.2 [] [JVal.str "u2", JVal.str "u1"]
    [JVal.obj [("url", JVal.str "u1"), ("publishedAt", JVal.str "2024-01-01")],
     JVal.obj [("url", JVal.str "u2"), ("publishedAt", JVal.str "2024-01-01")]]
    rfl _ _ (List.Sublist.refl _) rfl (by simp)

/-! ## Lemmas: date label arithmetic -/

theorem usPerSec_eq : usPerSec = 1000000 := rfl
theorem usPerHour_eq : usPerHour = 3600000000 := rfl
theorem usPerDay_eq : usPerDay = 86400000000 := rfl

theorem fdiv_usPerDay (t : Int) : Int.fdiv t usPerDay = t / 86400000000 := by
  rw [usPerDay_eq]
  exact Int.fdiv_eq_ediv _ (by decide)

theorem fmod_usPerDay (t : Int) : Int.fmod t usPerDay = t % 86400000000 := by
  rw [usPerDay_eq]
  exact Int.fmod_eq_emod _ (by decide)

theorem hoursExpr_eq (t : Int) :
    Int.fdiv (Int.fdiv (Int.fmod t usPerDay) usPerSec) 3600 =
      t % 86400000000 / 1000000 / 3600 := by
  rw [fmod_usPerDay, usPerSec_eq,
    Int.fdiv_eq_ediv _ (by decide : (0 : Int) ≤ 1000000),
    Int.fdiv_eq_ediv _ (by decide : (0 : Int) ≤ 3600)]

theorem formatLabel_just_now {t : Int} (dt : PyDateTime)
    (h0 : 0 ≤ t) (h1 : t < usPerHour) : formatLabel t dt = "Just now" := by
  rw [usPerHour_eq] at h1
  have hd : Int.fdiv t usPerDay = 0 := by rw [fdiv_usPerDay]; omega
  have hh : Int.fdiv (Int.fdiv (Int.fmod t usPerDay) usPerSec) 3600 = 0 := by
    rw [hoursExpr_eq]; omega
  rw [formatLabel, if_pos hd, if_pos hh]

theorem formatLabel_hours {t : Int} (dt : PyDateTime)
    (h0 : usPerHour ≤ t) (h1 : t < usPerDay) :
    formatLabel t dt = toString (t / usPerHour) ++ "h ago" := by
  rw [usPerHour_eq] at h0 ⊢
  rw [usPerDay_eq] at h1
  have hd : Int.fdiv t usPerDay = 0 := by rw [fdiv_usPerDay]; omega
  have hh : Int.fdiv (Int.fdiv (Int.fmod t usPerDay) usPerSec) 3600 =
      t / 3600000000 := by
    rw [hoursExpr_eq]; omega
  have hne : ¬ Int.fdiv (Int.fdiv (Int.fmod t usPerDay) usPerSec) 3600 = 0 := by
    rw [hh]; omega
  rw [formatLabel, if_pos hd, if_neg hne, hh]

theorem formatLabel_yesterday {t : Int} (dt : PyDateTime)
    (h0 : usPerDay ≤ t) (h1 : t < 2 * usPerDay) :
    formatLabel t dt = "Yesterday" := by
  rw [usPerDay_eq] at h0 h1
  have hd : Int.fdiv t usPerDay = 1 := by rw [fdiv_usPerDay]; omega
  rw [formatLabel, if_neg (by rw [hd]; decide), if_pos hd]

theorem formatLabel_days {t : Int} (dt : PyDateTime)
    (h0 : 2 * usPerDay ≤ t) (h1 : t < 7 * usPerDay) :
    formatLabel t dt = toString (t / usPerDay) ++ " days ago" := by
  rw [usPerDay_eq] at h0 h1 ⊢
  have hd : Int.fdiv t usPerDay = t / 86400000000 := fdiv_usPerDay t
  rw [formatLabel, if_neg (by rw [hd]; omega), if_neg (by rw [hd]; omega),
    if_pos (by rw [hd]; omega), hd]

theorem formatLabel_absolute {t : Int} (dt : PyDateTime)
    (h0 : 7 * usPerDay ≤ t) : formatLabel t dt = strftimeBD dt := by
  rw [usPerDay_eq] at h0
  have hd : Int.fdiv t usPerDay = t / 86400000000 := fdiv_usPerDay t
  rw [formatLabel, if_neg (by rw [hd]; omega), if_neg (by rw [hd]; omega),
    if_neg (by rw [hd]; omega)]

theorem formatLabel_future {t : Int} (dt : PyDateTime) (h : t < 0) :
    formatLabel t dt = toString (t / usPerDay) ++ " days ago" := by
  rw [usPerDay_eq] at *
  have hd : Int.fdiv t usPerDay = t / 86400000000 := fdiv_usPerDay t
  rw [formatLabel, if_neg (by rw [hd]; omega), if_neg (by rw [hd]; omega),
    if_pos (by rw [hd]; omega), hd]

theorem format_date_parsed {rn : RenderNow} {s : String} {dt : PyDateTime}
    (hp : parseIso (replaceZ s) = some dt) :
    format_date rn (.str s) = formatCore rn dt := by
  simp only [format_date]
  rw [hp]

theorem format_date_unparseable {rn : RenderNow} {s : String}
    (hp : parseIso (replaceZ s) = none) : format_date rn (.str s) = "" := by
  simp only [format_date]
  rw [hp]

theorem formatCore_aware {rn : RenderNow} {dt : PyDateTime} {off : Int}
    (hoff : dt.offUs = some off) :
    formatCore rn dt = formatLabel (rn.absUs - absUs dt off) dt := by
  rw [formatCore, hoff]

/-! ## Claim C4 -/

/-- C4, counterexample: the render time is 2024-01-02 10:00 UTC and the
timestamp 2024-01-01 20:00 UTC — the previous calendar day ("exactly 1
day prior" in calendar terms), 14 hours earlier.  The claim's rules
("\<N\>h ago" only on the same calendar day, "Yesterday" when 1 day
prior) require "Yesterday" here, but the code buckets by elapsed 24-hour
periods (`diff.days == 0`) and prints "14h ago". -/
theorem C4_counterexample :
    format_date
      ⟨naiveUs ⟨2024, 1, 2, 10, 0, 0, 0, none⟩,
       naiveUs ⟨2024, 1, 2, 10, 0, 0, 0, none⟩⟩
      (.str "2024-01-01T20:00:00Z") = "14h ago" ∧
    ("14h ago" : String) ≠ "Yesterday" := ⟨rfl, by decide⟩

/-- C4 (amended): the label is selected by whole 24-hour periods between
the parsed timestamp and the render time, not by calendar days: with
`diff = now - dt`, "Just now" for `0 ≤ diff < 1h`; "`⌊diff/1h⌋`h ago" for
`1h ≤ diff < 24h` (even across midnight); "Yesterday" for
`24h ≤ diff < 48h` (in particular at exactly 25 hours); "`⌊diff/24h⌋`
days ago" for `48h ≤ diff < 7·24h`; the absolute "Mon DD" label for
`diff ≥ 7·24h`; an unparseable timestamp (or a non-string value) yields
the empty string, and no error is ever raised (`format_date` is a total
function). -/
theorem C4_format_date_buckets :
    (∀ (s : String) (dt : PyDateTime) (off : Int) (rn : RenderNow),
      parseIso (replaceZ s) = some dt → dt.offUs = some off →
      (0 ≤ rn.absUs - absUs dt off → rn.absUs - absUs dt off < usPerHour →
        format_date rn (.str s) = "Just now") ∧
      (usPerHour ≤ rn.absUs - absUs dt off →
        rn.absUs - absUs dt off < usPerDay →
        format_date rn (.str s) =
          toString ((rn.absUs - absUs dt off) / usPerHour) ++ "h ago") ∧
      (usPerDay ≤ rn.absUs - absUs dt off →
        rn.absUs - absUs dt off < 2 * usPerDay →
        format_date rn (.str s) = "Yesterday") ∧
      (2 * usPerDay ≤ rn.absUs - absUs dt off →
        rn.absUs - absUs dt off < 7 * usPerDay →
        format_date rn (.str s) =
          toString ((rn.absUs - absUs dt off) / usPerDay) ++ " days ago") ∧
      (7 * usPerDay ≤ rn.absUs - absUs dt off →
        format_date rn (.str s) = strftimeBD dt)) ∧
    (∀ (s : String) (rn : RenderNow), parseIso (replaceZ s) = none →
      format_date rn (.str s) = "") ∧
    (∀ (v : JVal) (rn : RenderNow), (∀ t, v ≠ .str t) →
      format_date rn v = "") := by
  refine ⟨?_, ?_, ?_⟩
  · intro s dt off rn hp hoff
    have he : format_date rn (.str s) =
        formatLabel (rn.absUs - absUs dt off) dt :=
      (format_date_parsed hp).trans (formatCore_aware hoff)
    exact ⟨fun h0 h1 => he.trans (formatLabel_just_now dt h0 h1),
      fun h0 h1 => he.trans (formatLabel_hours dt h0 h1),
      fun h0 h1 => he.trans (formatLabel_yesterday dt h0 h1),
      fun h0 h1 => he.trans (formatLabel_days dt h0 h1),
      fun h0 => he.trans (formatLabel_absolute dt h0)⟩
  · intro s rn hp
    exact format_date_unparseable hp
  · intro v rn hv
    cases v with
    | str t => exact absurd rfl (hv t)
    | null => rfl
    | int n => rfl
    | obj fs => rfl

/-- Witness for C4: at render time 2024-01-02 11:00 UTC the timestamp
2024-01-01 10:00 UTC (exactly 25 hours earlier) is labelled "Yesterday",
and at render time 2024-01-01 10:30 UTC (exactly 30 minutes later than
the timestamp) it is labelled "Just now". -/
theorem C4_format_date_buckets_witness :
    format_date
      ⟨naiveUs ⟨2024, 1, 2, 11, 0, 0, 0, none⟩,
       naiveUs ⟨2024, 1, 2, 11, 0, 0, 0, none⟩⟩
      (.str "2024-01-01T10:00:00Z") = "Yesterday" ∧
    format_date
      ⟨naiveUs ⟨2024, 1, 1, 10, 30, 0, 0, none⟩,
       naiveUs ⟨2024, 1, 1, 10, 30, 0, 0, none⟩⟩
      (.str "2024-01-01T10:00:00Z") = "Just now" ∧
    format_date
      ⟨naiveUs ⟨2024, 1, 2, 11, 0, 0, 0, none⟩,
       naiveUs ⟨2024, 1, 2, 11, 0, 0, 0, none⟩⟩
      (.str "not a timestamp") = "" := by
  refine ⟨?_, ?_, ?_⟩
  · exact ((C4_format_date_buckets.1 "2024-01-01T10:00:00Z"
      ⟨2024, 1, 1, 10, 0, 0, 0, some 0⟩ 0 _ rfl rfl).2.2.1
      (by decide) (by decide))
  · exact ((C4_format_date_buckets.1 "2024-01-01T10:00:00Z"
      ⟨2024, 1, 1, 10, 0, 0, 0, some 0⟩ 0 _ rfl rfl).1
      (by decide) (by decide))
  · exact C4_format_date_buckets.2.1 "not a timestamp" _ rfl

/-! ## Claim C10 -/

/-- C10: a parseable aware timestamp strictly later than the render time
always falls into the `diff.days < 7` branch with a negative
`diff.days`, so the label is "`⌊diff/24h⌋` days ago" with a negative
count — "-1 days ago" for anything up to 24 hours in the future — and is
never "Just now" and never empty. -/
theorem C10_future_dates (s : String) (dt : PyDateTime) (off : Int)
    (rn : RenderNow) (hp : parseIso (replaceZ s) = some dt)
    (hoff : dt.offUs = some off) (hfut : rn.absUs < absUs dt off) :
    format_date rn (.str s) =
      toString ((rn.absUs - absUs dt off) / usPerDay) ++ " days ago" ∧
    (rn.absUs - absUs dt off) / usPerDay < 0 ∧
    (absUs dt off - rn.absUs ≤ usPerDay →
      format_date rn (.str s) = "-1 days ago") ∧
    format_date rn (.str s) ≠ "Just now" ∧
    format_date rn (.str s) ≠ "" := by
  have he : format_date rn (.str s) =
      formatLabel (rn.absUs - absUs dt off) dt :=
    (format_date_parsed hp).trans (formatCore_aware hoff)
  have hneg : rn.absUs - absUs dt off < 0 := by omega
  have hlabel := he.trans (formatLabel_future dt hneg)
  have hdaysneg : (rn.absUs - absUs dt off) / usPerDay < 0 := by
    rw [usPerDay_eq]; omega
  refine ⟨hlabel, hdaysneg, ?_, ?_, ?_⟩
  · intro hle
    rw [usPerDay_eq] at hle
    have hone : (rn.absUs - absUs dt off) / usPerDay = -1 := by
      rw [usPerDay_eq]; omega
    rw [hlabel, hone]
    decide
  · intro hjn
    have := congrArg String.length (hlabel.symm.trans hjn)
    rw [String.length_append] at this
    have h9 : (" days ago" : String).length = 9 := rfl
    have h8 : ("Just now" : String).length = 8 := rfl
    omega
  · intro hjn
    have := congrArg String.length (hlabel.symm.trans hjn)
    rw [String.length_append] at this
    have h9 : (" days ago" : String).length = 9 := rfl
    have h0 : ("" : String).length = 0 := rfl
    omega

/-- Witness for C10: a timestamp 5 hours in the future of the render
time is labelled "-1 days ago". -/
theorem C10_future_dates_witness :
    format_date
      ⟨naiveUs ⟨2024, 1, 2, 10, 0, 0, 0, none⟩,
       naiveUs ⟨2024, 1, 2, 10, 0, 0, 0, none⟩⟩
      (.str "2024-01-02T15:00:00Z") = "-1 days ago" ∧
    format_date
      ⟨naiveUs ⟨2024, 1, 2, 10, 0, 0, 0, none⟩,
       naiveUs ⟨2024, 1, 2, 10, 0, 0, 0, none⟩⟩
      (.str "2024-01-02T15:00:00Z") ≠ "Just now" := by
  have h := C10_future_dates "2024-01-02T15:00:00Z"
    ⟨2024, 1, 2, 15, 0, 0, 0, some 0⟩ 0
    ⟨naiveUs ⟨2024, 1, 2, 10, 0, 0, 0, none⟩,
     naiveUs ⟨2024, 1, 2, 10, 0, 0, 0, none⟩⟩
    rfl rfl (by decide)
  exact ⟨h.2.2.1 (by decide), h.2.2.2.1⟩

/-! ## Lemmas: escaping -/

theorem escapeChar_plain {c : Char} (h : plainChar c = true) :
    escapeChar c = [c] := by
  unfold plainChar at h
  simp only [Bool.not_eq_true', Bool.or_eq_false_iff, decide_eq_false_iff_not]
    at h
  unfold escapeChar
  rw [if_neg h.1.1.1.1, if_neg h.1.1.1.2, if_neg h.1.1.2, if_neg h.1.2,
    if_neg h.2]

theorem escapeChars_plain :
    ∀ {l : List Char}, (∀ c ∈ l, plainChar c = true) → escapeChars l = l
  | [], _ => rfl
  | c :: l, h => by
      unfold escapeChars
      rw [List.flatMap_cons, escapeChar_plain (h c (List.mem_cons_self _ _))]
      have := escapeChars_plain (fun x hx => h x (List.mem_cons_of_mem _ hx))
      unfold escapeChars at this
      rw [this]
      rfl

theorem pyEscape_plain {d : String} (h : plainText d = true) :
    pyEscape d = d := by
  unfold pyEscape
  rw [escapeChars_plain (List.all_eq_true.mp h)]

/-- Every character produced by `escapeChar` is `safeChar`. -/
theorem escapeChar_safe (c : Char) : ∀ x ∈ escapeChar c, safeChar x = true := by
  unfold escapeChar
  by_cases h1 : c = '&'
  · rw [if_pos h1]; decide
  · rw [if_neg h1]
    by_cases h2 : c = '<'
    · rw [if_pos h2]; decide
    · rw [if_neg h2]
      by_cases h3 : c = '>'
      · rw [if_pos h3]; decide
      · rw [if_neg h3]
        by_cases h4 : c = '"'
        · rw [if_pos h4]; decide
        · rw [if_neg h4]
          by_cases h5 : c = '\x27'
          · rw [if_pos h5]; decide
          · rw [if_neg h5]
            intro x hx
            rcases List.mem_singleton.mp hx with rfl
            unfold safeChar
            simp only [Bool.not_eq_true', Bool.or_eq_false_iff,
              decide_eq_false_iff_not]
            exact ⟨⟨⟨h2, h3⟩, h4⟩, h5⟩

theorem escapeChars_safe :
    ∀ (l : List Char), ∀ x ∈ escapeChars l, safeChar x = true
  | [] => by intro x hx; cases hx
  | c :: l => by
      intro x hx
      unfold escapeChars at hx
      rw [List.flatMap_cons] at hx
      rcases List.mem_append.mp hx with hm | hm
      · exact escapeChar_safe c x hm
      · exact escapeChars_safe l x hm

theorem pyEscape_safe (d : String) : noRawSpecials (pyEscape d) = true := by
  unfold noRawSpecials pyEscape
  exact List.all_eq_true.mpr (escapeChars_safe d.data)

/-- Evaluation of the description pipeline on a string value: escape
first, then the length test and the slice on the escaped text. -/
theorem renderDescription_str (d : String) :
    renderDescription (.str d) =
      .ok (if 150 < (pyEscape d).length then
            String.mk ((pyEscape d).data.take 147) ++ "..."
          else pyEscape d) := by
  by_cases h : d = ""
  · subst h; rfl
  · unfold renderDescription
    have ht : truthy (.str d) = true := by
      unfold truthy
      simp [h]
    rw [if_pos ht]
    rfl

/-! ## Claim C5 -/

/-- C5, counterexample: the claim says a description of at most 150
characters is rendered unchanged; but the code escapes first, so the
3-character description `a&b` renders as `a&amp;b`, not unchanged.  (The
147/150 thresholds likewise apply to the escaped text.) -/
theorem C5_counterexample :
    renderDescription (.str "a&b") = .ok "a&amp;b" ∧
    ("a&amp;b" : String) ≠ "a&b" := ⟨rfl, by decide⟩

/-- C5 (amended): the truncation thresholds apply to the HTML-escaped
description.  For a description with no HTML-special characters the
escaping is the identity and the claim's numbers hold exactly: longer
than 150 characters renders as its first 147 characters plus "...", at
most 150 characters renders unchanged; a null description and the empty
default for an absent one render as the empty string. -/
theorem C5_description_truncation :
    (∀ d : String, plainText d = true → 150 < d.length →
      renderDescription (.str d) = .ok (String.mk (d.data.take 147) ++ "...")) ∧
    (∀ d : String, plainText d = true → d.length ≤ 150 →
      renderDescription (.str d) = .ok d) ∧
    renderDescription .null = .ok "" ∧
    renderDescription (.str "") = .ok "" := by
  refine ⟨?_, ?_, rfl, rfl⟩
  · intro d hp hlen
    rw [renderDescription_str, pyEscape_plain hp, if_pos hlen]
  · intro d hp hlen
    rw [renderDescription_str, pyEscape_plain hp,
      if_neg (by omega : ¬ 150 < d.length)]

set_option maxRecDepth 4000 in
/-- Witness for C5: a 151-character plain description renders as its
first 147 characters followed by "...". -/
theorem C5_description_truncation_witness :
    renderDescription (.str (String.mk (List.replicate 151 'x'))) =
      .ok (String.mk (List.replicate 147 'x') ++ "...") := by
  have h := C5_description_truncation.1 (String.mk (List.replicate 151 'x'))
    (by decide) (by decide)
  rw [h]
  simp only [List.take_replicate]
  norm_num

/-! ## Lemmas: the rightmost `" - "` split -/

theorem containsPat_append_self :
    ∀ (x y : List Char), containsPat sepChars (x ++ (sepChars ++ y)) = true
  | [], y => by
      show containsPat sepChars (' ' :: ('-' :: ' ' :: y)) = true
      rw [containsPat]
      simp [sepChars, List.isPrefixOf]
  | c :: x, y => by
      show containsPat sepChars (c :: (x ++ (sepChars ++ y))) = true
      rw [containsPat, containsPat_append_self x y]
      simp

/-- Stripping at the rightmost separator: when the suffix `b` admits no
separator occurrence after the displayed one (no occurrence of `" - "`
inside `'-' :: ' ' :: b`, which covers every occurrence starting after
the split point), `rsplit` keeps exactly the part before it. -/
theorem beforeLastPat_append :
    ∀ (x y : List Char), containsPat sepChars ('-' :: ' ' :: y) = false →
      beforeLastPat sepChars (x ++ (sepChars ++ y)) = x
  | [], y, h => by
      show beforeLastPat sepChars (' ' :: ('-' :: ' ' :: y)) = []
      rw [beforeLastPat, if_neg (by rw [h]; simp),
        if_pos (by simp [sepChars, List.isPrefixOf])]
  | c :: x, y, h => by
      show beforeLastPat sepChars (c :: (x ++ (sepChars ++ y))) = c :: x
      rw [beforeLastPat, if_pos (containsPat_append_self x y),
        beforeLastPat_append x y h]

/-- Evaluation of the title pipeline on a nonempty string value. -/
theorem renderTitle_str {t : String} (h : t ≠ "") :
    renderTitle (.str t) =
      if containsPat sepChars (pyEscape t).data then
        .ok (String.mk (beforeLastPat sepChars (pyEscape t).data))
      else .ok (pyEscape t) := by
  unfold renderTitle
  have ht : truthy (.str t) = true := by
    unfold truthy
    simp [h]
  rw [if_pos ht]
  rfl

/-! ## Claim C8 -/

/-- C8, counterexample: the claim says a title with no `" - "` separator
is rendered unchanged; the code escapes the title, so `a<b` renders as
`a&lt;b`. -/
theorem C8_counterexample :
    renderTitle (.str "a<b") = .ok "a&lt;b" ∧
    ("a&lt;b" : String) ≠ "a<b" := ⟨rfl, by decide⟩

/-- C8 (amended): the rendered card title is the HTML-escaped title with
the trailing `" - <suffix>"` stripped at the rightmost `" - "` of the
escaped text; for titles without HTML-special characters the escaping is
the identity and the claim holds verbatim: `a ++ " - " ++ b` with no
later separator renders as `a`, a title with no separator renders
unchanged, and an absent, null or empty title renders as "Untitled". -/
theorem C8_title_stripping :
    (∀ t : String, t ≠ "" → plainText t = true →
      containsPat sepChars t.data = false → renderTitle (.str t) = .ok t) ∧
    (∀ a b : String, plainText (a ++ " - " ++ b) = true →
      containsPat sepChars ('-' :: ' ' :: b.data) = false →
      renderTitle (.str (a ++ " - " ++ b)) = .ok a) ∧
    renderTitle (.str "") = .ok "Untitled" ∧
    renderTitle .null = .ok "Untitled" := by
  refine ⟨?_, ?_, rfl, rfl⟩
  · intro t hne hp hcp
    rw [renderTitle_str hne, pyEscape_plain hp, if_neg (by rw [hcp]; simp)]
  · intro a b hp hcp
    have hne : (a ++ " - " ++ b) ≠ "" := by
      intro heq
      have := congrArg String.data heq
      simp [String.data_append] at this
    have hdata : (a ++ " - " ++ b).data = a.data ++ (sepChars ++ b.data) := by
      simp [String.data_append, List.append_assoc]
      rfl
    rw [renderTitle_str hne, pyEscape_plain hp, hdata,
      if_pos (containsPat_append_self _ _), beforeLastPat_append _ _ hcp]

/-- Witness for C8: `"Foo Bar - Example News"` renders as `"Foo Bar"`,
and a title with no separator renders unchanged. -/
theorem C8_title_stripping_witness :
    renderTitle (.str "Foo Bar - Example News") = .ok "Foo Bar" ∧
    renderTitle (.str "No Separator Here") = .ok "No Separator Here" := by
  refine ⟨?_, ?_⟩
  · exact C8_title_stripping.2.1 "Foo Bar" "Example News" (by decide) (by decide)
  · exact C8_title_stripping.1 "No Separator Here" (by decide) (by decide)
      (by decide)

/-! ## Lemmas: ampersands in escaped output -/

theorem ampEscaped_append_chunk {c : Char} {rest : List Char}
    (hrest : ampEscaped rest = true) :
    ampEscaped (escapeChar c ++ rest) = true := by
  unfold escapeChar
  by_cases h1 : c = '&'
  · rw [if_pos h1]
    show ampEscaped ('&' :: 'a' :: 'm' :: 'p' :: ';' :: rest) = true
    simp [ampEscaped, hrest]
  · rw [if_neg h1]
    by_cases h2 : c = '<'
    · rw [if_pos h2]
      show ampEscaped ('&' :: 'l' :: 't' :: ';' :: rest) = true
      simp [ampEscaped, hrest]
    · rw [if_neg h2]
      by_cases h3 : c = '>'
      · rw [if_pos h3]
        show ampEscaped ('&' :: 'g' :: 't' :: ';' :: rest) = true
        simp [ampEscaped, hrest]
      · rw [if_neg h3]
        by_cases h4 : c = '"'
        · rw [if_pos h4]
          show ampEscaped ('&' :: 'q' :: 'u' :: 'o' :: 't' :: ';' :: rest) = true
          simp [ampEscaped, hrest]
        · rw [if_neg h4]
          by_cases h5 : c = '\x27'
          · rw [if_pos h5]
            show ampEscaped
              ('&' :: '#' :: 'x' :: '2' :: '7' :: ';' :: rest) = true
            simp [ampEscaped, hrest]
          · rw [if_neg h5]
            show ampEscaped (c :: rest) = true
            simp [ampEscaped, hrest, h1]

theorem ampEscaped_escapeChars :
    ∀ (l : List Char), ampEscaped (escapeChars l) = true
  | [] => rfl
  | c :: l => by
      unfold escapeChars
      rw [List.flatMap_cons]
      exact ampEscaped_append_chunk (ampEscaped_escapeChars l)

theorem beforeLastPat_subset :
    ∀ (pat l : List Char), ∀ x ∈ beforeLastPat pat l, x ∈ l := by
  intro pat l
  induction l with
  | nil => intro x hx; cases hx
  | cons c rest ih =>
      intro x hx
      rw [beforeLastPat] at hx
      split at hx
      · rcases List.mem_cons.mp hx with rfl | hx'
        · exact List.mem_cons_self _ _
        · exact List.mem_cons_of_mem _ (ih x hx')
      · split at hx
        · cases hx
        · rcases List.mem_cons.mp hx with rfl | hx'
          · exact List.mem_cons_self _ _
          · exact List.mem_cons_of_mem _ (ih x hx')

theorem noRawSpecials_mk_of_subset {l m : List Char}
    (hsub : ∀ x ∈ l, x ∈ m) (hm : ∀ x ∈ m, safeChar x = true) :
    noRawSpecials (String.mk l) = true := by
  unfold noRawSpecials
  exact List.all_eq_true.mpr (fun x hx => hm x (hsub x hx))

/-! ## Claim C9 -/

set_option maxRecDepth 10000 in
/-- C9, counterexample: the 147-character truncation is applied to the
escaped description and can cut an entity.  A description of 146 `x`s
followed by `&zzzz` escapes to 146 `x`s plus `&amp;zzzz` (155 > 150
characters), and the first 147 characters end in the bare `&` of the
severed `&amp;` — the rendered excerpt contains an ampersand from an
API-supplied field that is not part of any entity (`ampEscaped` fails),
i.e. an unescaped special character reaches the output. -/
theorem C9_counterexample :
    renderDescription
      (.str (String.mk (List.replicate 146 'x') ++ "&zzzz")) =
      .ok (String.mk (List.replicate 146 'x') ++ "&...") ∧
    ampEscaped (String.mk (List.replicate 146 'x') ++ "&...").data = false := by
  exact ⟨rfl, by decide⟩

/-- C9 (amended): every rendered field is built from HTML-escaped text,
so the raw characters `<`, `>`, `"` and `'` never occur in a rendered
title, URL, source name or description; every ampersand in a rendered
URL or source name begins an entity; but the description's truncation
(see the counterexample) can leave a trailing ampersand that does not
begin an entity. -/
theorem C9_fields_escaped :
    (∀ (v : JVal) (t : String), renderTitle v = .ok t →
      noRawSpecials t = true) ∧
    (∀ (v : JVal) (u : String), renderUrl v = .ok u →
      noRawSpecials u = true ∧ ampEscaped u.data = true) ∧
    (∀ (v : JVal) (s : String), renderSource v = .ok s →
      noRawSpecials s = true ∧ ampEscaped s.data = true) ∧
    (∀ (v : JVal) (d : String), renderDescription v = .ok d →
      noRawSpecials d = true) := by
  refine ⟨?_, ?_, ?_, ?_⟩
  · intro v t h
    unfold renderTitle at h
    cases hw : (if truthy v then v else JVal.str "Untitled") with
    | str s =>
        rw [hw] at h
        simp only [pyEscapeJ] at h
        split at h
        · cases h
          exact noRawSpecials_mk_of_subset
            (beforeLastPat_subset _ _) (escapeChars_safe _)
        · cases h
          exact pyEscape_safe s
    | null => rw [hw] at h; cases h
    | int n => rw [hw] at h; cases h
    | obj fs => rw [hw] at h; cases h
  · intro v u h
    cases v with
    | str s =>
        cases h
        exact ⟨pyEscape_safe s, ampEscaped_escapeChars s.data⟩
    | null => cases h
    | int n => cases h
    | obj fs => cases h
  · intro v s h
    cases v with
    | obj fs =>
        simp only [renderSource, pyGet] at h
        cases hn : (fs.lookup "name").getD (.str "Unknown") with
        | str s' =>
            rw [hn] at h
            cases h
            exact ⟨pyEscape_safe s', ampEscaped_escapeChars s'.data⟩
        | null => rw [hn] at h; cases h
        | int n => rw [hn] at h; cases h
        | obj fs' => rw [hn] at h; cases h
    | str s' => cases h
    | null => cases h
    | int n => cases h
  · intro v d h
    unfold renderDescription at h
    cases hw : (if truthy v then v else JVal.str "") with
    | str s =>
        rw [hw] at h
        simp only [pyEscapeJ] at h
        cases h
        split
        · rw [noRawSpecials, String.data_append, List.all_append,
            Bool.and_eq_true]
          refine ⟨?_, by decide⟩
          exact List.all_eq_true.mpr
            (fun x hx => escapeChars_safe _ x (List.take_subset _ _ hx))
        · exact pyEscape_safe s
    | null => rw [hw] at h; cases h
    | int n => rw [hw] at h; cases h
    | obj fs => rw [hw] at h; cases h

/-- Witness for C9 (amended): the rendered URL for `a&b` is `a&amp;b` —
no raw specials, ampersand opening an entity — and the rendered title
for `a<b` is `a&lt;b` — no raw specials. -/
theorem C9_fields_escaped_witness :
    noRawSpecials "a&amp;b" = true ∧
    ampEscaped ("a&amp;b" : String).data = true ∧
    noRawSpecials "a&lt;b" = true := by
  have h := C9_fields_escaped
  exact ⟨(h.2.1 (.str "a&b") "a&amp;b" rfl).1,
    (h.2.1 (.str "a&b") "a&amp;b" rfl).2,
    h.1 (.str "a<b") "a&lt;b" rfl⟩

/-! ## Claim C6 -/

/-- When every fetch fails, the query loop leaves the accumulation empty
and logs one diagnostic per query, in query order. -/
theorem aggregateQueries_all_failures (net : String → FetchOutcome)
    (err : String → String) (hf : ∀ q, net q = .failure (err q)) :
    ∀ (qs logs : List String) (seen : List JVal),
      aggregateQueries net qs logs seen [] =
        .ok (logs ++ qs.map
          (fun q => "Error fetching news for \x27" ++ q ++ "\x27: " ++ err q),
          seen, [])
  | [], logs, seen => by simp [aggregateQueries]
  | q :: qs, logs, seen => by
      rw [aggregateQueries, hf q]
      simp only [fetch_news, dedupArticles]
      rw [aggregateQueries_all_failures net err hf qs _ seen]
      simp

/-- C6: the fetcher always returns a list and never propagates a
failure: on success it returns the response's `articles` array (empty
when the key is absent); on any failure it returns the empty list and
logs a diagnostic naming the failing query; consequently a category
whose every fetch fails still aggregates successfully to an empty list,
with one diagnostic per query. -/
theorem C6_fetcher_absorbs_failures :
    (∀ (q : String) (articles : Option (List JVal)),
      fetch_news q (.success articles) = ([], articles.getD [])) ∧
    (∀ (q e : String),
      fetch_news q (.failure e) =
        (["Error fetching news for \x27" ++ q ++ "\x27: " ++ e], [])) ∧
    (∀ (queries : List String) (net : String → FetchOutcome)
      (err : String → String),
      (∀ q, net q = .failure (err q)) →
      fetch_category_news queries net =
        .ok (queries.map
          (fun q => "Error fetching news for \x27" ++ q ++ "\x27: " ++ err q),
          [])) := by
  refine ⟨fun _ _ => rfl, fun _ _ => rfl, ?_⟩
  intro queries net err hnet
  rw [fetch_category_news, aggregateQueries_all_failures net err hnet queries [] []]
  rfl

/-- Witness for C6: two failing queries produce an empty aggregation and
two diagnostics naming the queries. -/
theorem C6_fetcher_absorbs_failures_witness :
    fetch_category_news ["a", "b"] (fun _ => .failure "timed out") =
      .ok (["Error fetching news for \x27a\x27: timed out",
            "Error fetching news for \x27b\x27: timed out"], []) :=
  C6_fetcher_absorbs_failures.2.2 ["a", "b"]
    (fun _ => FetchOutcome.failure "timed out") (fun _ => "timed out")
    (fun _ => rfl)

/-! ## Lemmas: well-formed inputs never crash the run -/

theorem wf_isObj {a : JVal} (h : wfArticle a = true) : isObj a = true := by
  cases a <;> simp_all [wfArticle, isObj]

theorem wf_url_hashable {a : JVal} (h : wfArticle a = true) :
    hashable (urlOf a) = true := by
  cases a with
  | obj fs =>
      unfold wfArticle at h
      simp only [Bool.and_eq_true] at h
      have hU := h.1.1.1.2
      simp only [urlOf]
      cases hu : fs.lookup "url" with
      | none => rfl
      | some v => cases v <;> simp_all [wfFieldOpt, hashable]
  | null => cases h
  | str s => cases h
  | int n => cases h

theorem dedupArticles_ok :
    ∀ (articles : List JVal),
      (∀ a ∈ articles, isObj a = true ∧ hashable (urlOf a) = true) →
      ∀ seen acc, ∃ r, dedupArticles articles seen acc = .ok r
  | [], _, seen, acc => ⟨(seen, acc), rfl⟩
  | a :: rest, h, seen, acc => by
      obtain ⟨hobj, hhash⟩ := h a (List.mem_cons_self _ _)
      have hrest := fun x hx => h x (List.mem_cons_of_mem _ hx)
      cases a with
      | obj fs =>
          rw [dedupArticles]
          simp only [pyGet]
          have hurl : (fs.lookup "url").getD (JVal.str "") =
              urlOf (JVal.obj fs) := rfl
          rw [hurl]
          by_cases ht : truthy (urlOf (.obj fs)) = true
          · rw [if_pos ht, if_pos hhash]
            by_cases hs : seen.any (jeq (urlOf (.obj fs))) = true
            · rw [if_pos hs]
              exact dedupArticles_ok rest hrest seen acc
            · rw [if_neg hs]
              exact dedupArticles_ok rest hrest _ _
          · rw [if_neg ht]
            exact dedupArticles_ok rest hrest seen acc
      | null => cases hobj
      | str s => cases hobj
      | int n => cases hobj

theorem fetch_news_wf {net : String → FetchOutcome} (hwf : wfNet net)
    (q : String) : ∀ a ∈ (fetch_news q (net q)).2, wfArticle a = true := by
  have h := hwf q
  cases ho : net q with
  | success arts =>
      cases arts with
      | none => intro a ha; cases ha
      | some l =>
          rw [ho] at h
          intro a ha
          exact h a ha
  | failure e => intro a ha; cases ha

theorem aggregateQueries_ok {net : String → FetchOutcome} (hwf : wfNet net) :
    ∀ (qs : List String) (logs : List String) (seen acc : List JVal),
      ∃ r, aggregateQueries net qs logs seen acc = .ok r
  | [], logs, seen, acc => ⟨(logs, seen, acc), rfl⟩
  | q :: qs, logs, seen, acc => by
      have harts : ∀ a ∈ (fetch_news q (net q)).2,
          isObj a = true ∧ hashable (urlOf a) = true := by
        intro a ha
        have := fetch_news_wf hwf q a ha
        exact ⟨wf_isObj this, wf_url_hashable this⟩
      obtain ⟨⟨seen', acc'⟩, hd⟩ :=
        dedupArticles_ok (fetch_news q (net q)).2 harts seen acc
      rw [aggregateQueries, hd]
      exact aggregateQueries_ok hwf qs _ seen' acc'

theorem mapExcept_eq_map {α β : Type _} {f : α → Except String β}
    {g : α → β} :
    ∀ {l : List α}, (∀ x ∈ l, f x = .ok (g x)) →
      mapExcept f l = .ok (l.map g)
  | [], _ => rfl
  | a :: l, h => by
      rw [mapExcept, h a (List.mem_cons_self _ _),
        mapExcept_eq_map (fun x hx => h x (List.mem_cons_of_mem _ hx))]
      rfl

theorem mapExcept_ok {α β : Type _} {f : α → Except String β} :
    ∀ {l : List α}, (∀ x ∈ l, ∃ b, f x = .ok b) →
      ∃ bs, mapExcept f l = .ok bs
  | [], _ => ⟨[], rfl⟩
  | a :: l, h => by
      obtain ⟨b, hb⟩ := h a (List.mem_cons_self _ _)
      obtain ⟨bs, hbs⟩ :=
        mapExcept_ok (fun x hx => h x (List.mem_cons_of_mem _ hx))
      exact ⟨b :: bs, by rw [mapExcept, hb, hbs]⟩

theorem mapExcept_keys_ok (acc : List JVal) (h : ∀ a ∈ acc, isObj a = true) :
    mapExcept (fun a => pyGet a "publishedAt" (.str "")) acc =
      .ok (acc.map keyOf) := by
  apply mapExcept_eq_map
  intro x hx
  cases x with
  | obj fs => rfl
  | null => cases h _ hx
  | str s => cases h _ hx
  | int n => cases h _ hx

theorem wf_key_str {a : JVal} (h : wfArticle a = true) :
    ∃ s, keyOf a = .str s := by
  cases a with
  | obj fs =>
      unfold wfArticle at h
      simp only [Bool.and_eq_true] at h
      have hP := h.1.1.2
      simp only [keyOf]
      cases hp : fs.lookup "publishedAt" with
      | none => exact ⟨"", rfl⟩
      | some v =>
          cases v with
          | str s => exact ⟨s, rfl⟩
          | null => rw [hp] at hP; cases hP
          | int n => rw [hp] at hP; cases hP
          | obj fs' => rw [hp] at hP; cases hP
  | null => cases h
  | str s => cases h
  | int n => cases h

theorem sortKeysComparable_of_wf {acc : List JVal}
    (h : ∀ a ∈ acc, wfArticle a = true) :
    sortKeysComparable (acc.map keyOf) = true := by
  unfold sortKeysComparable
  rw [Bool.or_eq_true]
  right
  rw [Bool.or_eq_true]
  left
  rw [List.all_eq_true]
  intro k hk
  obtain ⟨a, ha, rfl⟩ := List.mem_map.mp hk
  obtain ⟨s, hs⟩ := wf_key_str (h a ha)
  rw [hs]

theorem fetch_category_news_ok {net : String → FetchOutcome} (hwf : wfNet net)
    (queries : List String) :
    ∃ logs out, fetch_category_news queries net = .ok (logs, out) ∧
      ∀ a ∈ out, wfArticle a = true ∧ truthy (urlOf a) = true := by
  obtain ⟨⟨logs, seen, acc⟩, hagg⟩ := aggregateQueries_ok hwf queries [] [] []
  have hspec := aggregateQueries_spec queries net [] [] [] logs seen acc hagg
    (by intro a ha; cases ha) List.Pairwise.nil
  have hwfacc : ∀ a ∈ acc, wfArticle a = true := by
    intro a ha
    rcases hspec.2.2 a ha with hm | ⟨q, -, hmem⟩
    · cases hm
    · exact fetch_news_wf hwf q a hmem
  have hobj : ∀ a ∈ acc, isObj a = true := fun a ha => (hspec.1 a ha).1
  refine ⟨logs, (acc.insertionSort descByKey).take 6, ?_, ?_⟩
  · have h1 : fetch_category_news queries net =
        (match mapExcept (fun a => pyGet a "publishedAt" (JVal.str "")) acc with
          | .error e => .error e
          | .ok keys =>
              if sortKeysComparable keys = true then
                .ok (logs, (acc.insertionSort descByKey).take 6)
              else .error "TypeError: unorderable types in sort") := by
      rw [fetch_category_news, hagg]
    rw [h1, mapExcept_keys_ok acc hobj]
    simp only [sortKeysComparable_of_wf hwfacc, if_true]
  · intro a ha
    have hmem : a ∈ acc :=
      (List.perm_insertionSort descByKey acc).subset
        ((List.take_sublist _ _).subset ha)
    exact ⟨hwfacc a hmem, (hspec.1 a hmem).2.1⟩

theorem renderTitle_ok : ∀ {v : JVal}, strOrNull v = true →
    ∃ t, renderTitle v = .ok t
  | .null, _ => ⟨"Untitled", rfl⟩
  | .str s, _ => by
      by_cases h : s = ""
      · subst h
        exact ⟨"Untitled", rfl⟩
      · rw [renderTitle_str h]
        by_cases hc : containsPat sepChars (pyEscape s).data = true
        · exact ⟨_, if_pos hc⟩
        · exact ⟨_, if_neg hc⟩
  | .int n, h => by cases h
  | .obj fs, h => by cases h

theorem renderDescription_ok : ∀ {v : JVal}, strOrNull v = true →
    ∃ d, renderDescription v = .ok d
  | .null, _ => ⟨"", rfl⟩
  | .str s, _ => ⟨_, renderDescription_str s⟩
  | .int n, h => by cases h
  | .obj fs, h => by cases h

theorem strOrNull_getD (d : String) {o : Option JVal}
    (h : wfFieldOpt o = true) : strOrNull (o.getD (.str d)) = true := by
  cases o with
  | none => rfl
  | some v => cases v <;> simp_all [wfFieldOpt, strOrNull]

theorem url_field_str {fs : List (String × JVal)}
    (hU : wfFieldOpt (fs.lookup "url") = true)
    (hurl : truthy (urlOf (.obj fs)) = true) :
    ∃ s, fs.lookup "url" = some (.str s) := by
  simp only [urlOf] at hurl
  cases hu : fs.lookup "url" with
  | none =>
      rw [hu] at hurl
      simp [truthy] at hurl
  | some v =>
      cases v with
      | str s => exact ⟨s, rfl⟩
      | null =>
          rw [hu] at hurl
          simp [truthy] at hurl
      | int n =>
          rw [hu] at hU
          cases hU
      | obj fs' =>
          rw [hu] at hU
          cases hU

theorem renderSource_ok_of_wf {o : Option JVal} (h : wfSource o = true) :
    ∃ s, renderSource (o.getD (.obj [])) = .ok s := by
  cases o with
  | none => exact ⟨"Unknown", rfl⟩
  | some v =>
      cases v with
      | obj fs' =>
          simp only [Option.getD_some]
          simp only [wfSource] at h
          simp only [renderSource, pyGet]
          cases hn : fs'.lookup "name" with
          | none => exact ⟨"Unknown", rfl⟩
          | some w =>
              cases w with
              | str s' => exact ⟨pyEscape s', rfl⟩
              | null => rw [hn] at h; cases h
              | int n => rw [hn] at h; cases h
              | obj fs'' => rw [hn] at h; cases h
      | null => cases h
      | str s' => cases h
      | int n => cases h

theorem generate_story_html_ok (rn : RenderNow) (f : Bool) :
    ∀ {a : JVal}, wfArticle a = true → truthy (urlOf a) = true →
      ∃ s, generate_story_html rn a f = .ok s := by
  intro a hwf hurl
  cases a with
  | obj fs =>
      have h' := hwf
      unfold wfArticle at h'
      simp only [Bool.and_eq_true] at h'
      obtain ⟨⟨⟨⟨hT, hU⟩, hP⟩, hD⟩, hS⟩ := h'
      obtain ⟨t, ht⟩ := renderTitle_ok (strOrNull_getD "Untitled" hT)
      obtain ⟨us, hus⟩ := url_field_str hU hurl
      obtain ⟨src, hsrc⟩ := renderSource_ok_of_wf hS
      obtain ⟨d, hd⟩ := renderDescription_ok (strOrNull_getD "" hD)
      cases hE : generate_story_html rn (JVal.obj fs) f with
      | ok s => exact ⟨s, rfl⟩
      | error e =>
          simp only [generate_story_html, pyGet, bind, Except.bind, ht, hus,
            Option.getD_some, renderUrl, pyEscapeJ, hsrc, hd] at hE
          cases hE
  | null => cases hwf
  | str s => cases hwf
  | int n => cases hwf

theorem categorySections_ok (rn : RenderNow) :
    ∀ (cats : List (String × List JVal)),
      (∀ p ∈ cats, ∀ a ∈ p.2, wfArticle a = true ∧ truthy (urlOf a) = true) →
      ∃ s, categorySections rn cats = .ok s
  | [], _ => ⟨"", rfl⟩
  | (cat, arts) :: rest, h => by
      obtain ⟨srest, hsr⟩ := categorySections_ok rn rest
        (fun p hp => h p (List.mem_cons_of_mem _ hp))
      by_cases he : arts.isEmpty = true
      · rw [categorySections, if_pos he]
        exact ⟨srest, hsr⟩
      · rw [categorySections, if_neg he]
        have hcards : ∀ x ∈ arts.enum, ∃ b,
            generate_story_html rn x.2 (x.1 = 0) = .ok b := by
          intro x hx
          have hx2 : x.2 ∈ arts :=
            List.getElem?_mem (List.mem_enum_iff_getElem?.mp hx)
          obtain ⟨hwf, hu⟩ := h (cat, arts) (List.mem_cons_self _ _) x.2 hx2
          exact generate_story_html_ok rn _ hwf hu
        obtain ⟨cards, hc⟩ := mapExcept_ok hcards
        rw [hc, hsr]
        exact ⟨_, rfl⟩

theorem generate_html_ok (rn : RenderNow) (today : String)
    (cats : List (String × List JVal))
    (h : ∀ p ∈ cats, ∀ a ∈ p.2, wfArticle a = true ∧ truthy (urlOf a) = true) :
    ∃ s, generate_html rn today cats = .ok s := by
  obtain ⟨s, hs⟩ := categorySections_ok rn cats h
  exact ⟨pageHtml today s, by rw [generate_html, hs]⟩

theorem categoriesFetch_ok {net : String → FetchOutcome} (hwf : wfNet net) :
    ∀ (cats : List (String × List String)),
      ∃ logs newsByCat, categoriesFetch net cats = .ok (logs, newsByCat) ∧
        ∀ p ∈ newsByCat, ∀ a ∈ p.2,
          wfArticle a = true ∧ truthy (urlOf a) = true
  | [] => ⟨[], [], rfl, fun p hp => by cases hp⟩
  | (cat, qs) :: rest => by
      obtain ⟨logs1, out, hfc, hout⟩ := fetch_category_news_ok hwf qs
      obtain ⟨logs2, nbc, hcf, hprop⟩ := categoriesFetch_ok hwf rest
      refine ⟨("  Fetching " ++ cat ++ "...") :: (logs1 ++ logs2),
        (cat, out) :: nbc, ?_, ?_⟩
      · rw [categoriesFetch, hfc, hcf]
      · intro p hp
        rcases List.mem_cons.mp hp with rfl | hp'
        · exact hout
        · exact hprop p hp'

theorem main_run_ok (apiKeyFile outputFile : String)
    (keyFile envKey : Option String) {net : String → FetchOutcome}
    (today nowStamp : String) (rn : RenderNow)
    (hkey : ¬ get_api_key keyFile envKey = "") (hwf : wfNet net) :
    ∃ html logs,
      main_run apiKeyFile outputFile keyFile envKey net today nowStamp rn =
        .ok (0, some html, logs) := by
  obtain ⟨logs, nbc, hcf, hprop⟩ := categoriesFetch_ok hwf CATEGORIES
  obtain ⟨html, hhtml⟩ := generate_html_ok rn today nbc hprop
  refine ⟨html,
    ("Fetching news at " ++ nowStamp ++ "...") :: logs ++
      ["  Found " ++ toString ((nbc.map (fun p => p.2.length)).sum) ++
        " articles", "Updated: " ++ outputFile], ?_⟩
  rw [main_run, if_neg hkey, hcf]
  simp only [hhtml]

/-! ## Claim C2 -/

/-- C2, counterexample: with a credential present, an API response whose
articles carry `publishedAt: null` (two of them, with distinct URLs)
makes the sort key comparison raise an uncaught `TypeError`: the run
dies and no output file is written — refuting "no input can make the run
fail ... including articles with null or missing fields". -/
theorem C2_counterexample :
    main_run "key_file" "index.html" none (some "k")
      (fun _ => FetchOutcome.success (some [
        JVal.obj [("url", JVal.str "https://a.example"),
                  ("publishedAt", JVal.null)],
        JVal.obj [("url", JVal.str "https://b.example"),
                  ("publishedAt", JVal.null)]]))
      "January 02, 2024" "2024-01-02 10:00:00" ⟨0, 0⟩ =
      .error "TypeError: unorderable types in sort" := rfl

/-- C2 (amended): once the credential check passes, the run writes the
output HTML and exits 0 for every network environment whose successful
responses contain only well-formed articles (JSON objects whose `title`,
`url`, `description` are strings or null, `publishedAt` a string when
present, and `source` an object with string or absent `name`), including
total API unavailability (every fetch failing).  Ill-typed fields such
as a null `publishedAt` or a null `source` can still crash the run (see
the counterexample). -/
theorem C2_no_fatal_after_credential (apiKeyFile outputFile : String)
    (keyFile envKey : Option String) (net : String → FetchOutcome)
    (today nowStamp : String) (rn : RenderNow)
    (hkey : get_api_key keyFile envKey ≠ "") (hwf : wfNet net) :
    ∃ html logs,
      main_run apiKeyFile outputFile keyFile envKey net today nowStamp rn =
        .ok (0, some html, logs) :=
  main_run_ok apiKeyFile outputFile keyFile envKey today nowStamp rn hkey hwf

/-- Witness for C2 (amended): with a credential from the environment and
every fetch failing (total API unavailability), the run still succeeds
with exit status 0 and writes a page. -/
theorem C2_no_fatal_after_credential_witness :
    ∃ html logs,
      main_run "AKF" "OUT" none (some "k")
        (fun _ => FetchOutcome.failure "connection refused")
        "January 02, 2024" "2024-01-02 10:00:00" ⟨0, 0⟩ =
        .ok (0, some html, logs) :=
  C2_no_fatal_after_credential "AKF" "OUT" none (some "k") _
    "January 02, 2024" "2024-01-02 10:00:00" ⟨0, 0⟩
    (by decide) (fun _ => trivial)

/-! ## Claim C7 -/

/-- C7, counterexample: with a credential present, the orchestrator does
not always exit 0: an article whose `source` field is null makes the
renderer raise an uncaught `AttributeError` (`None.get`), so the process
dies with a traceback instead of exit status 0. -/
theorem C7_counterexample :
    main_run "key_file" "index.html" none (some "k")
      (fun _ => FetchOutcome.success (some [
        JVal.obj [("url", JVal.str "https://a.example"),
                  ("source", JVal.null)]]))
      "January 02, 2024" "2024-01-02 10:00:00" ⟨0, 0⟩ =
      .error "AttributeError" := rfl

/-- C7 (amended): with no credential file and no environment variable
the resolved credential is empty and the orchestrator — for every
network environment, hence without any network call — writes no output
file, prints the remediation diagnostics, and exits with status 1.
Otherwise it proceeds, and exits with status 0 having written the output
file whenever no uncaught error occurs (in particular whenever every
fetched article is well-formed, or every fetch fails); ill-typed
response data can still crash the run (see the counterexample). -/
theorem C7_credential_gate :
    (∀ (apiKeyFile outputFile : String) (net : String → FetchOutcome)
      (today nowStamp : String) (rn : RenderNow),
      main_run apiKeyFile outputFile none none net today nowStamp rn =
        .ok (1, none, [
          "Error: No API key found.",
          "Create a file at: " ++ apiKeyFile,
          "Or set NEWSAPI_KEY environment variable.",
          "Get a free key at: https://newsapi.org/register"])) ∧
    (∀ (apiKeyFile outputFile : String) (keyFile envKey : Option String)
      (net : String → FetchOutcome) (today nowStamp : String)
      (rn : RenderNow),
      get_api_key keyFile envKey ≠ "" → wfNet net →
      ∃ r, main_run apiKeyFile outputFile keyFile envKey net today nowStamp
          rn = .ok r ∧ r.1 = 0 ∧ r.2.1 ≠ none) := by
  constructor
  · intro apiKeyFile outputFile net today nowStamp rn
    rw [main_run, if_pos (show get_api_key none none = "" from rfl)]
  · intro apiKeyFile outputFile keyFile envKey net today nowStamp rn hkey hwf
    obtain ⟨html, logs, h⟩ := main_run_ok apiKeyFile outputFile keyFile
      envKey today nowStamp rn hkey hwf
    exact ⟨(0, some html, logs), h, rfl, by simp⟩

/-- Witness for C7 (amended): concretely, an absent credential exits 1
with the remediation lines and writes nothing — for an arbitrary
network — and a present credential with an unreachable API exits 0
having written the page. -/
theorem C7_credential_gate_witness :
    (main_run "AKF" "OUT" none none (fun _ => FetchOutcome.failure "x")
      "t" "n" ⟨0, 0⟩ =
      .ok (1, none, ["Error: No API key found.", "Create a file at: AKF",
        "Or set NEWSAPI_KEY environment variable.",
        "Get a free key at: https://newsapi.org/register"])) ∧
    ∃ r, main_run "AKF" "OUT" none (some "k2")
        (fun _ => FetchOutcome.failure "down") "t" "n" ⟨0, 0⟩ =
        .ok r ∧ r.1 = 0 ∧ r.2.1 ≠ none :=
  ⟨C7_credential_gate.1 "AKF" "OUT" _ "t" "n" ⟨0, 0⟩,
    C7_credential_gate.2 "AKF" "OUT" none (some "k2") _ "t" "n" ⟨0, 0⟩
      (by decide) (fun _ => trivial)⟩

end TechPulse
